import Mathlib

/-!
# Verification development for `units.h` (namespace `unit`)

The library is a compile-time dimensional-analysis engine.  A C++ unit type
`Unit<e0, e1, ...>` is embedded as the list of its exponents, a template
instantiation is embedded as a function returning `Option`: `none` means the
instantiation is ill-formed (the program is rejected by the compiler), `some u`
means it denotes the unit `u`.

Machine integers: `TExponent`, `ExponentIndex` and `DimensionIndex` are `int`
(32 bit two's complement), `std::ratio::num` / `den` are `intmax_t` (64 bit).
Signed overflow inside a constant expression is undefined behaviour, hence not a
constant expression, hence a compile error; the implicit conversion of an
`intmax_t` value to `int` in a `return` statement is a modular reduction.
-/

namespace unit

/-! ## Machine integers -/

/-- Smallest value of the C++ type `int`. -/
def INT_MIN : Int := -2147483648

/-- Largest value of the C++ type `int`. -/
def INT_MAX : Int := 2147483647

/-- Smallest value of the C++ type `intmax_t`. -/
def INTMAX_MIN : Int := -9223372036854775808

/-- Largest value of the C++ type `intmax_t`. -/
def INTMAX_MAX : Int := 9223372036854775807

/-- The value is representable in `int`. -/
def inInt (x : Int) : Prop := INT_MIN ≤ x ∧ x ≤ INT_MAX

instance (x : Int) : Decidable (inInt x) := by
  unfold inInt; exact inferInstance

/-- The value is representable in `intmax_t`. -/
def inIntMax (x : Int) : Prop := INTMAX_MIN ≤ x ∧ x ≤ INTMAX_MAX

instance (x : Int) : Decidable (inIntMax x) := by
  unfold inIntMax; exact inferInstance

/-- Result of an `int` arithmetic operation evaluated in a constant expression:
the mathematical value when it is representable, otherwise the expression is not
a constant expression and the instantiation is rejected. -/
def checkedInt (x : Int) : Option Int := if inInt x then some x else none

/-- Result of an `intmax_t` arithmetic operation evaluated in a constant
expression. -/
def checkedIntMax (x : Int) : Option Int := if inIntMax x then some x else none

/-- Implicit conversion of an `intmax_t` value to `int` (the return statement of
`multiply::value`): reduction modulo `2^32` into the range of `int`. -/
def narrowToInt (x : Int) : Int := (x + 2147483648) % 4294967296 - 2147483648

/-! ## Exponent-vector engine -/

/-- The type `Unit<dimensionExponents...>`: the pack of its exponents. -/
abbrev Unit := List Int

/-- Every exponent of the pack is a value of type `TExponent = int`. -/
def Unit.wellFormed (U : Unit) : Prop := ∀ e ∈ U, inInt e

instance (U : Unit) : Decidable (Unit.wellFormed U) := by
  unfold Unit.wellFormed; exact inferInstance

namespace helper
namespace nthElement

/-- The template `NthElement<n, Arg, Args...>`: the primary template recurses
on `n - 1` and the tail of the pack, the specialisation for `n = 0` returns the
head.  An empty pack matches neither, so the instantiation fails. -/
def NthElement : Nat → List Int → Option Int
  | _, [] => none
  | 0, Arg :: _ => some Arg
  | n + 1, _ :: Args => NthElement n Args

end nthElement
end helper

/-- The member `Unit::exponent_count()`, that is `sizeof...(dimensionExponents)`. -/
def Unit.exponent_count (U : Unit) : Nat := U.length

/-- The member `Unit::exponent_value<i>()`.  The index parameter is an `int`
that is passed on as the `unsigned` parameter of `NthElement`; a negative
constant cannot be narrowed to `unsigned` in a template argument. -/
def Unit.exponent_value (U : Unit) (i : Int) : Option Int :=
  if i < 0 then none else helper.nthElement.NthElement i.toNat U

namespace helper

/-- The function `helper::exponent<Unit, i>()`. -/
def exponent (U : Unit) (i : Int) : Option Int := Unit.exponent_value U i

namespace baseunit

/-- The template `BaseUnitGen<it, index, exponents...>`.  The first argument of
this function is `it + 1`: the specialisation for `it = -1` is the case `0`, and
the primary template at `it = k` is the case `k + 1`. -/
def BaseUnitGen : Nat → Int → List Int → Unit
  | 0, _, exponents => exponents
  | k + 1, index, exponents =>
      BaseUnitGen k index ((if (k : Int) = index then 1 else 0) :: exponents)

end baseunit
end helper

/-- The alias `BaseUnit<dimension, lastDimension>`, that is
`BaseUnitGen<lastDimension, dimension>::type`.  Below `lastDimension = -1` the
recursion never meets the specialisation for `-1` and the instantiation
fails. -/
def BaseUnit (dimension lastDimension : Int) : Option Unit :=
  if lastDimension < -1 then none
  else some (helper.baseunit.BaseUnitGen (lastDimension + 1).toNat dimension [])

/-! ## Unit-algebra operators -/

/-- A type exposing the members `num` and `den` of type `intmax_t`, as
`std::ratio` does. -/
structure Fract where
  /-- Numerator as exposed by the type. -/
  num : Int
  /-- Denominator as exposed by the type. -/
  den : Int
deriving DecidableEq, Repr

/-- Both members are values of type `intmax_t`. -/
def Fract.wellFormed (f : Fract) : Prop := inIntMax f.num ∧ inIntMax f.den

/-- The members are in lowest terms with a positive denominator, which is what
`std::ratio` guarantees for `num` and `den`. -/
def Fract.reduced (f : Fract) : Prop := 0 < f.den ∧ Int.gcd f.num f.den = 1

instance (f : Fract) : Decidable (Fract.wellFormed f) := by
  unfold Fract.wellFormed; exact inferInstance

instance (f : Fract) : Decidable (Fract.reduced f) := by
  unfold Fract.reduced; exact inferInstance

namespace helper
namespace op

/-- The template `sum<U1, U2, index>`: `value()` adds two `int` values. -/
def sum (U1 U2 : Unit) (index : Int) : Option Int :=
  match Unit.exponent_value U1 index, Unit.exponent_value U2 index with
  | some a, some b => checkedInt (a + b)
  | _, _ => none

/-- The template `difference<U1, U2, index>`: `value()` subtracts two `int`
values. -/
def difference (U1 U2 : Unit) (index : Int) : Option Int :=
  match Unit.exponent_value U1 index, Unit.exponent_value U2 index with
  | some a, some b => checkedInt (a - b)
  | _, _ => none

/-- The template `multiply<U1, fract, index>`.  The product
`exponent * fract::num` is computed in `intmax_t`, where an overflow is not a
constant expression; so are a division by zero and the quotient of the smallest
`intmax_t` by `-1`.  The `static_assert` demands that the remainder of the
product by `fract::den` is zero (C++ `%` truncates toward zero); `value()`
returns the truncated quotient converted to `int`. -/
def multiply (U1 : Unit) (fract : Fract) (index : Int) : Option Int :=
  match helper.exponent U1 index with
  | none => none
  | some e =>
    match checkedIntMax (e * fract.num) with
    | none => none
    | some p =>
      if fract.den = 0 then none
      else if p = INTMAX_MIN ∧ fract.den = -1 then none
      else if Int.tmod p fract.den ≠ 0 then none
      else some (narrowToInt (Int.tdiv p fract.den))

/-- The template `UnitOperator<it, U1, U2, Op, exponents...>`.  The numeric
argument of this function is `it + 1`: the specialisation for `it = -1` is the
case `0`; the primary template at `it = k` evaluates `Op<U1, U2, k>::value()`,
puts it in front of the pack and continues with `k - 1`. -/
def UnitOperator {β : Type} (U1 : Unit) (U2 : β)
    (Op : Unit → β → Int → Option Int) : Nat → List Int → Option Unit
  | 0, exponents => some exponents
  | k + 1, exponents =>
    match Op U1 U2 (k : Int) with
    | none => none
    | some v => UnitOperator U1 U2 Op k (v :: exponents)

end op
end helper

/-- The alias `product_unit<U1, U2>`.  The start index
`U1::exponent_count() - 1` is an `unsigned` expression used as an `int` template
argument: for an empty pack it is `4294967295`, which cannot be narrowed.  Pack
lengths are taken to be below `2^31`, so that the index of the last exponent is
an `int` value. -/
def product_unit (U1 U2 : Unit) : Option Unit :=
  if Unit.exponent_count U1 = 0 then none
  else helper.op.UnitOperator U1 U2 helper.op.sum (Unit.exponent_count U1) []

/-- The alias `quotient_unit<U1, U2>`. -/
def quotient_unit (U1 U2 : Unit) : Option Unit :=
  if Unit.exponent_count U1 = 0 then none
  else helper.op.UnitOperator U1 U2 helper.op.difference (Unit.exponent_count U1) []

/-- The alias `raised_unit<U1, fract>`. -/
def raised_unit (U1 : Unit) (fract : Fract) : Option Unit :=
  if Unit.exponent_count U1 = 0 then none
  else helper.op.UnitOperator U1 fract helper.op.multiply (Unit.exponent_count U1) []

/-- The alias `sqare_unit<U>`. -/
def sqare_unit (U : Unit) : Option Unit := product_unit U U


/-- The library type `std::ratio<N, D>`: it is ill-formed for `D = 0` and when
an absolute value is not representable in `intmax_t`; otherwise its members are
`num = sign(N) * sign(D) * |N| / gcd(|N|, |D|)` and `den = |D| / gcd(|N|, |D|)`. -/
def std_ratio (N D : Int) : Option Fract :=
  if D = 0 ∨ ¬ inIntMax N ∨ ¬ inIntMax D ∨ N = INTMAX_MIN ∨ D = INTMAX_MIN then none
  else some ⟨Int.sign N * Int.sign D * ((N.natAbs / Nat.gcd N.natAbs D.natAbs : Nat) : Int),
    ((D.natAbs / Nat.gcd N.natAbs D.natAbs : Nat) : Int)⟩

/-! ## Quantity wrapper

`Quantity<Unit, MagnitudeRepresentation>` holds one magnitude; its unit is a
template argument.  The embedding keeps the unit as a tag next to the magnitude.
An operator template whose parameters cannot be deduced from the operand types,
or whose return type cannot be formed, yields `none`: the expression does not
compile.  The operators are generic in the magnitude representation, whose own
arithmetic and comparisons are taken from the type-class instances. -/

/-- The class template `Quantity<Unit, MagnitudeRepresentation>`. -/
structure Quantity (α : Type) where
  /-- The template argument `Unit`. -/
  unit : Unit
  /-- The data member `m_magnitude`. -/
  m_magnitude : α

/-- The member `Quantity::magnitude()`. -/
def Quantity.magnitude {α : Type} (q : Quantity α) : α := q.m_magnitude

/-- The binary `operator*` on quantities. -/
def operator_mul {α β γ : Type} [HMul α β γ] (l : Quantity α) (r : Quantity β) :
    Option (Quantity γ) :=
  match product_unit l.unit r.unit with
  | none => none
  | some u => some ⟨u, l.magnitude * r.magnitude⟩

/-- The binary `operator/` on quantities. -/
def operator_div {α β γ : Type} [HDiv α β γ] (l : Quantity α) (r : Quantity β) :
    Option (Quantity γ) :=
  match quotient_unit l.unit r.unit with
  | none => none
  | some u => some ⟨u, l.magnitude / r.magnitude⟩

/-- The binary `operator+` on quantities: both parameters name the same template
parameter `U`, so deduction succeeds only for identical units. -/
def operator_plus {α β γ : Type} [HAdd α β γ] (l : Quantity α) (r : Quantity β) :
    Option (Quantity γ) :=
  if l.unit = r.unit then some ⟨l.unit, l.magnitude + r.magnitude⟩ else none

/-- The binary `operator-` on quantities. -/
def operator_minus {α β γ : Type} [HSub α β γ] (l : Quantity α) (r : Quantity β) :
    Option (Quantity γ) :=
  if l.unit = r.unit then some ⟨l.unit, l.magnitude - r.magnitude⟩ else none

/-- The relational `operator<` on quantities. -/
def operator_lt {α : Type} [LT α] [DecidableRel (fun a b : α => a < b)]
    (l r : Quantity α) : Option Bool :=
  if l.unit = r.unit then some (decide (l.magnitude < r.magnitude)) else none

/-- The relational `operator<=` on quantities. -/
def operator_le {α : Type} [LE α] [DecidableRel (fun a b : α => a ≤ b)]
    (l r : Quantity α) : Option Bool :=
  if l.unit = r.unit then some (decide (l.magnitude ≤ r.magnitude)) else none

/-- The relational `operator>` on quantities. -/
def operator_gt {α : Type} [LT α] [DecidableRel (fun a b : α => a < b)]
    (l r : Quantity α) : Option Bool :=
  if l.unit = r.unit then some (decide (l.magnitude > r.magnitude)) else none

/-- The relational `operator>=` on quantities. -/
def operator_ge {α : Type} [LE α] [DecidableRel (fun a b : α => a ≤ b)]
    (l r : Quantity α) : Option Bool :=
  if l.unit = r.unit then some (decide (l.magnitude ≥ r.magnitude)) else none

/-- The relational `operator==` on quantities. -/
def operator_eq {α : Type} [DecidableEq α] (l r : Quantity α) : Option Bool :=
  if l.unit = r.unit then some (decide (l.magnitude = r.magnitude)) else none

/-- The relational `operator!=` on quantities. -/
def operator_ne {α : Type} [DecidableEq α] (l r : Quantity α) : Option Bool :=
  if l.unit = r.unit then some (decide (l.magnitude ≠ r.magnitude)) else none

/-- The function template `sqrt` on quantities; `sqrtMag` is the `sqrt` of the
magnitude representation. -/
def sqrt {α β : Type} (sqrtMag : α → β) (q : Quantity α) : Option (Quantity β) :=
  match raised_unit q.unit ⟨1, 2⟩ with
  | none => none
  | some u => some ⟨u, sqrtMag q.magnitude⟩

/-- The function template `pow<power>` on quantities; `pow_impl` is
`helper::pow_impl<power, T>`, the real-valued power function applied to the
magnitude. -/
def pow {α β : Type} (pow_impl : Fract → α → β) (power : Fract) (q : Quantity α) :
    Option (Quantity β) :=
  match raised_unit q.unit power with
  | none => none
  | some u => some ⟨u, pow_impl power q.magnitude⟩

/-! ## Named base units (namespace `u`) -/

namespace u

/-- The alias `u::unitless`. -/
def unitless : Option Unit := BaseUnit (-1) 6

/-- The alias `u::meter`. -/
def meter : Option Unit := BaseUnit 0 6

/-- The alias `u::kilogram`. -/
def kilogram : Option Unit := BaseUnit 1 6

/-- The alias `u::second`. -/
def second : Option Unit := BaseUnit 2 6

/-- The alias `u::ampere`. -/
def ampere : Option Unit := BaseUnit 3 6

/-- The alias `u::kelvin`. -/
def kelvin : Option Unit := BaseUnit 4 6

/-- The alias `u::mole`. -/
def mole : Option Unit := BaseUnit 5 6

/-- The alias `u::candela`. -/
def candela : Option Unit := BaseUnit 6 6

end u

/-! ## Math functions `square` and `cube` -/

/-- The function template `square` on quantities. -/
def square {α β : Type} [HMul α α β] (q : Quantity α) : Option (Quantity β) :=
  match product_unit q.unit q.unit with
  | none => none
  | some u => some ⟨u, q.magnitude * q.magnitude⟩

/-- The function template `cube` on quantities: its unit is
`product_unit<product_unit<U, U>, U>`, its magnitude
`(q.magnitude() * q.magnitude()) * q.magnitude()`. -/
def cube {α β γ : Type} [HMul α α β] [HMul β α γ] (q : Quantity α) : Option (Quantity γ) :=
  match product_unit q.unit q.unit with
  | none => none
  | some p =>
    match product_unit p q.unit with
    | none => none
    | some u => some ⟨u, (q.magnitude * q.magnitude) * q.magnitude⟩

/-! ## Compound assignment

The compound assignment operators take the left operand by reference and the
right operand by reference to const, and return a reference.  The embedding
passes the two objects as state: the result holds both objects after the call
and tells which of them the returned reference designates.  The operator
functions below take two distinct objects; `assign_same_object` is the call
whose two operands are one object. -/

/-- An operand object of a binary operator. -/
inductive Operand where
  /-- The object bound to the first parameter. -/
  | left
  /-- The object bound to the second parameter. -/
  | right
deriving DecidableEq, Repr

/-- The state after a compound assignment and the object its returned reference
designates. -/
structure Assigned (α β : Type) where
  /-- The left object after the call. -/
  l : Quantity α
  /-- The right object after the call. -/
  r : Quantity β
  /-- The object that the returned reference designates. -/
  returned : Operand

/-- The operator template `operator+=`: both parameters name the same template
parameter `U`; the body is `l.m_magnitude += r.m_magnitude, l`. -/
def operator_plus_assign {α β : Type} [HAdd α β α] (l : Quantity α) (r : Quantity β) :
    Option (Assigned α β) :=
  if l.unit = r.unit then some ⟨⟨l.unit, l.m_magnitude + r.m_magnitude⟩, r, Operand.left⟩
  else none

/-- The operator template `operator-=`. -/
def operator_minus_assign {α β : Type} [HSub α β α] (l : Quantity α) (r : Quantity β) :
    Option (Assigned α β) :=
  if l.unit = r.unit then some ⟨⟨l.unit, l.m_magnitude - r.m_magnitude⟩, r, Operand.left⟩
  else none

/-- The operator template `operator*=`: as for `operator+=`, both parameters name
the same template parameter `U`. -/
def operator_mul_assign {α β : Type} [HMul α β α] (l : Quantity α) (r : Quantity β) :
    Option (Assigned α β) :=
  if l.unit = r.unit then some ⟨⟨l.unit, l.m_magnitude * r.m_magnitude⟩, r, Operand.left⟩
  else none

/-- The operator template `operator/=`. -/
def operator_div_assign {α β : Type} [HDiv α β α] (l : Quantity α) (r : Quantity β) :
    Option (Assigned α β) :=
  if l.unit = r.unit then some ⟨⟨l.unit, l.m_magnitude / r.m_magnitude⟩, r, Operand.left⟩
  else none

/-- A compound assignment `x op= x`, whose two parameters are bound to one
object: the right operand is read before the left operand is written, and
afterwards both references designate the object, which holds the new value. -/
def assign_same_object {α : Type} (op : Quantity α → Quantity α → Option (Assigned α α))
    (x : Quantity α) : Option (Assigned α α) :=
  match op x x with
  | none => none
  | some a => some ⟨a.l, a.l, a.returned⟩

/-- The built-in integer types taken as magnitude representation. -/
inductive IntegerKind where
  /-- The type `int`. -/
  | int
  /-- The type `unsigned int`. -/
  | unsigned
deriving DecidableEq, Repr

/-- Largest value of the C++ type `unsigned int`. -/
def UINT_MAX : Int := 4294967295

/-- The value is representable in the integer type. -/
def IntegerKind.representable : IntegerKind → Int → Prop
  | IntegerKind.int, x => inInt x
  | IntegerKind.unsigned, x => 0 ≤ x ∧ x ≤ UINT_MAX

instance (k : IntegerKind) (x : Int) : Decidable (k.representable x) := by
  cases k <;> unfold IntegerKind.representable <;> exact inferInstance

/-- A magnitude of a built-in integer type under the built-in arithmetic
operators: a value of the type, or `undefined` for the outcome of an operation
whose behaviour is undefined. -/
inductive IntegerMagnitude (k : IntegerKind) where
  /-- A value of the type. -/
  | value (v : Int)
  /-- The outcome of an operation with undefined behaviour. -/
  | undefined
deriving DecidableEq, Repr

/-- The outcome of a built-in operation whose mathematical result is `x`: the
value `x` when the type represents it; otherwise the behaviour is undefined for
`int`, and the result is reduced modulo `2^32` for `unsigned int`. -/
def IntegerMagnitude.ofResult (k : IntegerKind) (x : Int) : IntegerMagnitude k :=
  if k.representable x then IntegerMagnitude.value x
  else
    match k with
    | IntegerKind.int => IntegerMagnitude.undefined
    | IntegerKind.unsigned => IntegerMagnitude.value (x % 4294967296)

instance (k : IntegerKind) : Add (IntegerMagnitude k) :=
  ⟨fun a b =>
    match a, b with
    | IntegerMagnitude.value x, IntegerMagnitude.value y => IntegerMagnitude.ofResult k (x + y)
    | _, _ => IntegerMagnitude.undefined⟩

instance (k : IntegerKind) : Sub (IntegerMagnitude k) :=
  ⟨fun a b =>
    match a, b with
    | IntegerMagnitude.value x, IntegerMagnitude.value y => IntegerMagnitude.ofResult k (x - y)
    | _, _ => IntegerMagnitude.undefined⟩

instance (k : IntegerKind) : Mul (IntegerMagnitude k) :=
  ⟨fun a b =>
    match a, b with
    | IntegerMagnitude.value x, IntegerMagnitude.value y => IntegerMagnitude.ofResult k (x * y)
    | _, _ => IntegerMagnitude.undefined⟩

/-- Built-in integer division truncates toward zero; a division by zero has
undefined behaviour. -/
instance (k : IntegerKind) : Div (IntegerMagnitude k) :=
  ⟨fun a b =>
    match a, b with
    | IntegerMagnitude.value x, IntegerMagnitude.value y =>
      if y = 0 then IntegerMagnitude.undefined
      else IntegerMagnitude.ofResult k (Int.tdiv x y)
    | _, _ => IntegerMagnitude.undefined⟩

/-! ## Derived units (namespace `u`) -/

/-- An alias template applied to two unit expressions: it denotes a unit only if
both arguments do. -/
def onUnits (f : Unit → Unit → Option Unit) (a b : Option Unit) : Option Unit :=
  match a, b with
  | some x, some y => f x y
  | _, _ => none

/-- An alias template applied to one unit expression: it denotes a unit only if
its argument does. -/
def onUnit (f : Unit → Option Unit) (a : Option Unit) : Option Unit :=
  match a with
  | some x => f x
  | none => none

namespace u

/-- The alias `u::radian`. -/
def radian : Option Unit := unitless

/-- The alias `u::steradian`. -/
def steradian : Option Unit := unitless

/-- The alias `u::hertz`. -/
def hertz : Option Unit := onUnits quotient_unit unitless second

/-- The alias `u::newton`. -/
def newton : Option Unit :=
  onUnits quotient_unit (onUnits product_unit kilogram meter) (onUnit sqare_unit second)

/-- The alias `u::pascal`. -/
def pascal : Option Unit := onUnits quotient_unit newton (onUnit sqare_unit meter)

/-- The alias `u::joule`. -/
def joule : Option Unit := onUnits quotient_unit newton meter

/-- The alias `u::watt`. -/
def watt : Option Unit := onUnits quotient_unit joule second

/-- The alias `u::coulomb`. -/
def coulomb : Option Unit := onUnits product_unit second ampere

/-- The alias `u::volt`. -/
def volt : Option Unit := onUnits quotient_unit watt ampere

/-- The alias `u::farad`. -/
def farad : Option Unit := onUnits quotient_unit coulomb volt

/-- The alias `u::ohm`. -/
def ohm : Option Unit := onUnits quotient_unit volt ampere

/-- The alias `u::siemens`. -/
def siemens : Option Unit := onUnits quotient_unit ampere volt

/-- The alias `u::weber`. -/
def weber : Option Unit := onUnits product_unit volt second

/-- The alias `u::tesla`. -/
def tesla : Option Unit := onUnits quotient_unit weber (onUnit sqare_unit meter)

/-- The alias `u::henry`. -/
def henry : Option Unit := onUnits quotient_unit weber ampere

/-- The alias `u::lumen`. -/
def lumen : Option Unit := onUnits product_unit candela steradian

/-- The alias `u::lux`. -/
def lux : Option Unit := onUnits quotient_unit lumen (onUnit sqare_unit meter)

/-- The alias `u::becquerel`. -/
def becquerel : Option Unit := hertz

/-- The alias `u::gray`. -/
def gray : Option Unit := onUnits quotient_unit joule kilogram

/-- The alias `u::sievert`. -/
def sievert : Option Unit := gray

/-- The alias `u::katal`. -/
def katal : Option Unit := onUnits quotient_unit mole second

/-- The alias `u::meter_cubed`. -/
def meter_cubed : Option Unit := onUnits product_unit meter (onUnit sqare_unit meter)

/-- The alias `u::meter_per_second`. -/
def meter_per_second : Option Unit := onUnits quotient_unit meter second

/-- The alias `u::meter_per_second_squared`. -/
def meter_per_second_squared : Option Unit :=
  onUnits quotient_unit meter (onUnit sqare_unit second)

/-- The alias `u::mol_inv`. -/
def mol_inv : Option Unit := onUnits quotient_unit unitless mole

end u

/-- The integer quotient truncated toward zero in the words of the
specification: the quotient of the absolute values, with the sign of the
operands' product. -/
def specTruncatedQuotient (a b : Int) : Int :=
  Int.sign a * Int.sign b * ((a.natAbs / b.natAbs : Nat) : Int)

/-! ## Symbols and printing

An output stream is embedded as the text written to it, with the default
formatting flags; a printing function takes the text written so far and returns
the text afterwards.  `none` stands for a program that does not build. -/

/-- The text that `operator<<` writes for an `int` with the default formatting
flags: decimal digits, preceded by `-` for a negative value. -/
def renderInt (e : Int) : String :=
  if e < 0 then "-" ++ Nat.repr e.natAbs else Nat.repr e.natAbs

/-- The function template `unitSymbol<U>()`: declared for every `U` and defined,
by explicit specialisation, for the seven base units only. -/
def unitSymbol (U : Unit) : Option String :=
  if some U = u.meter then some "m"
  else if some U = u.kilogram then some "kg"
  else if some U = u.second then some "s"
  else if some U = u.ampere then some "A"
  else if some U = u.kelvin then some "K"
  else if some U = u.mole then some "mol"
  else if some U = u.candela then some "cd"
  else none

namespace helper
namespace print

/-- The function template `print_unit_symbol_and_exponent<U, pos>`.  The symbol
is that of `BaseUnitGen<U::exponent_count() - 1, pos>::type`; the function that
supplies it has to be defined for the program to build. -/
def print_unit_symbol_and_exponent (U : Unit) (pos : Int) (s : String) : Option String :=
  match helper.exponent U pos with
  | none => none
  | some e =>
    match unitSymbol (helper.baseunit.BaseUnitGen (Unit.exponent_count U) pos []) with
    | none => none
    | some symbol =>
      if e = 0 then some s
      else if e ≠ 1 then some (s ++ symbol ++ "^" ++ renderInt e)
      else some (s ++ symbol)

/-- The member `DimensionsPrinter<U, pos>::print_unit`: the primary template
prints the dimensions below `pos` first and then the dimension `pos`; the
specialisation for `pos = 0` prints the dimension `0`. -/
def DimensionsPrinter (U : Unit) : Nat → String → Option String
  | 0, s => print_unit_symbol_and_exponent U 0 s
  | pos + 1, s =>
    match DimensionsPrinter U pos s with
    | none => none
    | some s1 => print_unit_symbol_and_exponent U ((pos + 1 : Nat) : Int) s1

end print
end helper

/-- The explicit specialisations of `print_unit`: the unit each one is declared
for and the text it writes. -/
def print_unit_specialised : List (Option Unit × String) :=
  [(u.hertz, "Hz"), (u.newton, "N"), (u.pascal, "Pa"), (u.joule, "J"), (u.watt, "W"),
   (u.coulomb, "C"), (u.volt, "V"), (u.farad, "F"), (u.ohm, "Ohm"), (u.siemens, "S"),
   (u.weber, "Wb"), (u.tesla, "T"), (u.henry, "H"), (u.lumen, "lm"), (u.lux, "Lx"),
   (u.gray, "Gy"), (u.katal, "ka")]

/-- The primary template of `print_unit<U>`: it starts `DimensionsPrinter` at
`U::exponent_count() - 1`, which is no `int` template argument for an empty
pack. -/
def print_unit_primary (U : Unit) (s : String) : Option String :=
  if Unit.exponent_count U = 0 then none
  else helper.print.DimensionsPrinter U (Unit.exponent_count U - 1) s

/-- The function template `print_unit<U>`: an explicit specialisation declared
for `U` takes precedence over the primary template. -/
def print_unit (U : Unit) (s : String) : Option String :=
  match print_unit_specialised.find? (fun p => decide (p.1 = some U)) with
  | some p => some (s ++ p.2)
  | none => print_unit_primary U s

/-- The base symbols of the seven dimensions, in the order of the
specification: m, kg, s, A, K, mol, cd. -/
def specBaseSymbols : List String := ["m", "kg", "s", "A", "K", "mol", "cd"]

/-- The text for one dimension in the words of the specification: nothing for
the exponent `0`, the base symbol for the exponent `1`, otherwise the base
symbol followed by `^` and the signed decimal exponent. -/
def specDimensionText (symbol : String) (e : Int) : String :=
  if e = 0 then "" else if e = 1 then symbol else symbol ++ "^" ++ renderInt e

/-- The printed unit in the words of the specification: the concatenation of
the dimension texts over the dimension indices in increasing order. -/
def specPrintUnit (U : Unit) : String :=
  String.join (List.zipWith specDimensionText specBaseSymbols U)

/-! ## Reading and writing quantities

An input stream is embedded as the characters not yet extracted together with
its fail state, the state that `!s` tests.  Streams are taken with their default
flags (`skipws` set, decimal base), the classic locale and no exceptions
enabled.  The end-of-file state is not kept apart: it coincides with no
character being left. -/

/-- An input stream: the characters not yet extracted and the fail state. -/
structure IStream where
  /-- The characters not yet extracted. -/
  input : List Char
  /-- Whether `failbit` or `badbit` is set. -/
  failed : Bool
deriving DecidableEq, Repr

/-- The classification `std::isspace` of the classic locale: space, and the
control characters from horizontal tab to carriage return. -/
def isspace (c : Char) : Bool :=
  decide (c.toNat = 32 ∨ (9 ≤ c.toNat ∧ c.toNat ≤ 13))

/-- The characters left after leading whitespace is skipped. -/
def skipws : List Char → List Char
  | [] => []
  | c :: cs => if isspace c = true then skipws cs else c :: cs

/-- The call `s.setstate(std::ios::failbit)`. -/
def setstate_failbit (s : IStream) : IStream := ⟨s.input, true⟩

/-- The formatted extraction `s >> found` of a `char`: nothing happens on a
failed stream; otherwise leading whitespace is skipped and the next character
is extracted, and the stream fails when no character is left.  The second
component is the value of `found`, absent while `found` is uninitialised. -/
def extract_char (s : IStream) : IStream × Option Char :=
  if s.failed = true then (s, none)
  else
    match skipws s.input with
    | [] => (⟨[], true⟩, none)
    | c :: cs => (⟨cs, false⟩, some c)

/-- The loop of `read_unit` over the characters of the expected text: each
round extracts a character and, when the stream has failed or the character is
not the expected one, sets `failbit` and returns. -/
def read_unit_loop : List Char → IStream → IStream
  | [], s => s
  | expected :: rest, s =>
    if (extract_char s).1.failed = true ∨ (extract_char s).2 ≠ some expected then
      setstate_failbit (extract_char s).1
    else read_unit_loop rest (extract_char s).1

/-- The function template `read_unit<Unit>`: the expected text is what
`print_unit<Unit>` writes to an empty string stream. -/
def read_unit (U : Unit) (s : IStream) : Option IStream :=
  match print_unit U "" with
  | none => none
  | some expectedBuff => some (read_unit_loop expectedBuff.data s)

/-- The operator template `operator>>` for quantities.  `extract` is the
extraction `s >> val` of the magnitude representation: it returns the stream
afterwards and the value of `val`.  The object `v` is assigned only after both
the magnitude and the unit have been read. -/
def operator_extract {α : Type} (extract : IStream → IStream × α) (s : IStream)
    (v : Quantity α) : Option (IStream × Quantity α) :=
  if (extract s).1.failed = true then
    match print_unit v.unit "" with
    | none => none
    | some _ => some ((extract s).1, v)
  else
    match read_unit v.unit (extract s).1 with
    | none => none
    | some s2 =>
      if s2.failed = true then some (s2, v)
      else some (s2, ⟨v.unit, (extract s).2⟩)

/-- The operator template `operator<<` for quantities.  `insert` is the text
that `s << v.magnitude()` writes for the magnitude representation. -/
def operator_insert {α : Type} (insert : α → String) (s : String) (v : Quantity α) :
    Option String :=
  print_unit v.unit (s ++ insert v.magnitude)

/-- The extraction `s >> val` of an `int` with the default flags: nothing is
read from a failed stream; otherwise leading whitespace is skipped, an optional
sign and the longest run of decimal digits are consumed; the stream fails when
there is no digit or when the value is not representable in `int`. -/
def extract_int (s : IStream) : IStream × Int :=
  if s.failed = true then (s, 0)
  else
    let cs := skipws s.input
    let negative := decide (cs.head? = some '-')
    let body := if cs.head? = some '-' ∨ cs.head? = some '+' then cs.tail else cs
    let digits := body.takeWhile Char.isDigit
    let value : Int := digits.foldl (fun a c => 10 * a + ((c.toNat - 48 : Nat) : Int)) 0
    if digits = [] then (⟨body.dropWhile Char.isDigit, true⟩, 0)
    else if negative = true then
      if inInt (-value) then (⟨body.dropWhile Char.isDigit, false⟩, -value)
      else (⟨body.dropWhile Char.isDigit, true⟩, INT_MIN)
    else
      if inInt value then (⟨body.dropWhile Char.isDigit, false⟩, value)
      else (⟨body.dropWhile Char.isDigit, true⟩, INT_MAX)

/-- Whether a text starts with a decimal digit. -/
def startsWithDigit : List Char → Bool
  | [] => false
  | c :: _ => c.isDigit

/-- The text holds no whitespace character. -/
def noSpace (t : String) : Prop := ∀ c ∈ t.data, isspace c = false

instance (t : String) : Decidable (noSpace t) := by
  unfold noSpace; exact inferInstance

/-! ## Auxiliary facts on the exponent-vector engine -/

theorem NthElement_eq_getElem? (n : Nat) (U : List Int) :
    helper.nthElement.NthElement n U = U[n]? := by
  induction U generalizing n with
  | nil => cases n <;> simp [helper.nthElement.NthElement]
  | cons a as ih =>
    cases n with
    | zero => simp [helper.nthElement.NthElement]
    | succ m => simp [helper.nthElement.NthElement, ih]

theorem exponent_value_natCast (U : Unit) (k : Nat) :
    Unit.exponent_value U (k : Int) = U[k]? := by
  unfold Unit.exponent_value
  have h : ¬ ((k : Int) < 0) := by omega
  simp [h, NthElement_eq_getElem?]

theorem exponent_value_lt (U : Unit) (k : Nat) (h : k < U.length) :
    Unit.exponent_value U (k : Int) = some (U.getD k 0) := by
  rw [exponent_value_natCast]
  simp [List.getD, List.getElem?_eq_getElem h]

theorem exponent_value_ge (U : Unit) (k : Nat) (h : U.length ≤ k) :
    Unit.exponent_value U (k : Int) = none := by
  rw [exponent_value_natCast]
  simp [h]

theorem UnitOperator_some {β : Type} (U1 : Unit) (U2 : β)
    (Op : Unit → β → Int → Option Int) (f : Nat → Int) (k : Nat) :
    ∀ acc : List Int, (∀ i, i < k → Op U1 U2 (i : Int) = some (f i)) →
      helper.op.UnitOperator U1 U2 Op k acc = some ((List.range k).map f ++ acc) := by
  induction k with
  | zero => intro acc _; simp [helper.op.UnitOperator]
  | succ k ih =>
    intro acc h
    have hk := h k (Nat.lt_succ_self k)
    have hrec := ih (f k :: acc) (fun i hi => h i (Nat.lt_succ_of_lt hi))
    simp [helper.op.UnitOperator, hk, hrec, List.range_succ]

theorem UnitOperator_none {β : Type} (U1 : Unit) (U2 : β)
    (Op : Unit → β → Int → Option Int) (k : Nat) :
    ∀ acc : List Int, (∃ i, i < k ∧ Op U1 U2 (i : Int) = none) →
      helper.op.UnitOperator U1 U2 Op k acc = none := by
  induction k with
  | zero => intro acc h; obtain ⟨i, hi, _⟩ := h; omega
  | succ k ih =>
    intro acc h
    obtain ⟨i, hi, hnone⟩ := h
    unfold helper.op.UnitOperator
    cases hv : Op U1 U2 (k : Int) with
    | none => rfl
    | some v =>
      have hik : i < k := by
        rcases Nat.lt_or_ge i k with h1 | h1
        · exact h1
        · have : i = k := by omega
          subst this
          rw [hv] at hnone
          cases hnone
      exact ih (v :: acc) ⟨i, hik, hnone⟩


/-- Elementwise operators: if both operand packs have an exponent at every index
below `n` and the operator computes `checkedInt (g a b)` there, the recursion
yields the pack of the values `g a b`. -/
theorem UnitOperator_binary_accept (U1 U2 : Unit) (Op : Unit → Unit → Int → Option Int)
    (g : Int → Int → Int) (n : Nat) (h1 : n ≤ U1.length) (h2 : n ≤ U2.length)
    (hOp : ∀ (i : Int) (a b : Int), Unit.exponent_value U1 i = some a →
      Unit.exponent_value U2 i = some b → Op U1 U2 i = checkedInt (g a b))
    (hr : ∀ i, i < n → inInt (g (U1.getD i 0) (U2.getD i 0))) :
    helper.op.UnitOperator U1 U2 Op n [] =
      some ((List.range n).map (fun i => g (U1.getD i 0) (U2.getD i 0))) := by
  have h := UnitOperator_some U1 U2 Op (fun i => g (U1.getD i 0) (U2.getD i 0)) n []
    (fun i hi => by
      rw [hOp i _ _ (exponent_value_lt U1 i (by omega)) (exponent_value_lt U2 i (by omega))]
      simp only [checkedInt, if_pos (hr i hi)])
  rw [h, List.append_nil]

theorem UnitOperator_binary_overflow (U1 U2 : Unit) (Op : Unit → Unit → Int → Option Int)
    (g : Int → Int → Int) (n : Nat) (h1 : n ≤ U1.length) (h2 : n ≤ U2.length)
    (hOp : ∀ (i : Int) (a b : Int), Unit.exponent_value U1 i = some a →
      Unit.exponent_value U2 i = some b → Op U1 U2 i = checkedInt (g a b))
    (hr : ∃ i, i < n ∧ ¬ inInt (g (U1.getD i 0) (U2.getD i 0))) :
    helper.op.UnitOperator U1 U2 Op n [] = none := by
  obtain ⟨i, hi, hbad⟩ := hr
  refine UnitOperator_none U1 U2 Op n [] ⟨i, hi, ?_⟩
  rw [hOp i _ _ (exponent_value_lt U1 i (by omega)) (exponent_value_lt U2 i (by omega))]
  simp only [checkedInt, if_neg hbad]

theorem sum_eq (U1 U2 : Unit) (i : Int) (a b : Int) (ha : Unit.exponent_value U1 i = some a)
    (hb : Unit.exponent_value U2 i = some b) : helper.op.sum U1 U2 i = checkedInt (a + b) := by
  simp [helper.op.sum, ha, hb]

theorem difference_eq (U1 U2 : Unit) (i : Int) (a b : Int)
    (ha : Unit.exponent_value U1 i = some a) (hb : Unit.exponent_value U2 i = some b) :
    helper.op.difference U1 U2 i = checkedInt (a - b) := by
  simp [helper.op.difference, ha, hb]

theorem exponent_value_range_map (f : Nat → Int) (n i : Nat) (hi : i < n) :
    Unit.exponent_value ((List.range n).map f) (i : Int) = some (f i) := by
  rw [exponent_value_natCast]
  simp [List.getElem?_range hi]

/-- C1 (amended): for units `U1`, `U2` with the same number `n ≥ 1` of exponents,
if every sum of corresponding exponents is representable in `int` then
`product_unit<U1,U2>` is a unit with exactly `n` exponents whose exponent at every
index is the sum of the operands' exponents there; if some sum is not
representable in `int`, `product_unit<U1,U2>` is rejected. -/
theorem product_unit_elementwise_sum (U1 U2 : Unit) (n : Nat) (hn : 1 ≤ n)
    (h1 : Unit.exponent_count U1 = n) (h2 : Unit.exponent_count U2 = n) :
    ((∀ (i : Nat) (a b : Int), i < n → Unit.exponent_value U1 i = some a →
        Unit.exponent_value U2 i = some b → inInt (a + b)) →
      ∃ R, product_unit U1 U2 = some R ∧ Unit.exponent_count R = n ∧
        ∀ i : Nat, i < n → ∃ a b, Unit.exponent_value U1 i = some a ∧
          Unit.exponent_value U2 i = some b ∧ Unit.exponent_value R i = some (a + b)) ∧
    ((∃ (i : Nat) (a b : Int), i < n ∧ Unit.exponent_value U1 i = some a ∧
        Unit.exponent_value U2 i = some b ∧ ¬ inInt (a + b)) →
      product_unit U1 U2 = none) := by
  have hne : ¬ (Unit.exponent_count U1 = 0) := by omega
  have hl1 : U1.length = n := h1
  have hl2 : U2.length = n := h2
  constructor
  · intro hr
    refine ⟨(List.range n).map (fun i => U1.getD i 0 + U2.getD i 0), ?_, by simp [Unit.exponent_count], ?_⟩
    · rw [product_unit, if_neg hne, h1]
      exact UnitOperator_binary_accept U1 U2 helper.op.sum (fun a b => a + b) n (by omega) (by omega)
        (sum_eq U1 U2)
        (fun i hi => hr i _ _ hi (exponent_value_lt U1 i (by omega)) (exponent_value_lt U2 i (by omega)))
    · intro i hi
      exact ⟨U1.getD i 0, U2.getD i 0, exponent_value_lt U1 i (by omega),
        exponent_value_lt U2 i (by omega), exponent_value_range_map _ n i hi⟩
  · rintro ⟨i, a, b, hi, ha, hb, hbad⟩
    rw [product_unit, if_neg hne, h1]
    refine UnitOperator_binary_overflow U1 U2 helper.op.sum (fun a b => a + b) n (by omega) (by omega)
      (sum_eq U1 U2) ⟨i, hi, ?_⟩
    rw [exponent_value_lt U1 i (by omega)] at ha
    rw [exponent_value_lt U2 i (by omega)] at hb
    cases ha; cases hb
    exact hbad


/-- C1 (witness): the theorem applied to `Unit<1,1,-2,0>` with itself. -/
theorem product_unit_elementwise_sum_witness :
    ∃ R, product_unit [1, 1, -2, 0] [1, 1, -2, 0] = some R ∧ Unit.exponent_count R = 4 ∧
      Unit.exponent_value R 2 = some (-4) := by
  obtain ⟨R, hR, hc, he⟩ := (product_unit_elementwise_sum [1, 1, -2, 0] [1, 1, -2, 0] 4
    (by decide) (by decide) (by decide)).1 (by
      intro i a b hi ha hb
      rw [exponent_value_lt _ i (by simpa using hi)] at ha hb
      cases ha; cases hb
      interval_cases i <;> decide)
  refine ⟨R, hR, hc, ?_⟩
  obtain ⟨a, b, ha, hb, hab⟩ := he 2 (by decide)
  rw [show Unit.exponent_value [1, 1, -2, 0] ((2 : Nat) : Int) = some (-2) from by decide] at ha hb
  cases ha; cases hb
  exact hab

/-- C1 (counterexample): `Unit<2147483647>` and `Unit<1>` are units with one
exponent each, yet `product_unit` of them is rejected, because the sum of the
exponents overflows `int` inside the constant expression. -/
theorem product_unit_overflow_rejected :
    Unit.wellFormed [2147483647] ∧ Unit.wellFormed [1] ∧
      Unit.exponent_count [2147483647] = 1 ∧ Unit.exponent_count [1] = 1 ∧
      product_unit [2147483647] [1] = none := by
  decide

/-- C2 (amended): for units `U1`, `U2` with the same number `n ≥ 1` of exponents,
if every difference of corresponding exponents is representable in `int` then
`quotient_unit<U1,U2>` is a unit with exactly `n` exponents whose exponent at
every index is the left exponent minus the right exponent there; if some
difference is not representable in `int`, `quotient_unit<U1,U2>` is rejected. -/
theorem quotient_unit_elementwise_difference (U1 U2 : Unit) (n : Nat) (hn : 1 ≤ n)
    (h1 : Unit.exponent_count U1 = n) (h2 : Unit.exponent_count U2 = n) :
    ((∀ (i : Nat) (a b : Int), i < n → Unit.exponent_value U1 i = some a →
        Unit.exponent_value U2 i = some b → inInt (a - b)) →
      ∃ R, quotient_unit U1 U2 = some R ∧ Unit.exponent_count R = n ∧
        ∀ i : Nat, i < n → ∃ a b, Unit.exponent_value U1 i = some a ∧
          Unit.exponent_value U2 i = some b ∧ Unit.exponent_value R i = some (a - b)) ∧
    ((∃ (i : Nat) (a b : Int), i < n ∧ Unit.exponent_value U1 i = some a ∧
        Unit.exponent_value U2 i = some b ∧ ¬ inInt (a - b)) →
      quotient_unit U1 U2 = none) := by
  have hne : ¬ (Unit.exponent_count U1 = 0) := by omega
  have hl1 : U1.length = n := h1
  have hl2 : U2.length = n := h2
  constructor
  · intro hr
    refine ⟨(List.range n).map (fun i => U1.getD i 0 - U2.getD i 0), ?_,
      by simp [Unit.exponent_count], ?_⟩
    · rw [quotient_unit, if_neg hne, h1]
      exact UnitOperator_binary_accept U1 U2 helper.op.difference (fun a b => a - b) n
        (by omega) (by omega) (difference_eq U1 U2)
        (fun i hi => hr i _ _ hi (exponent_value_lt U1 i (by omega))
          (exponent_value_lt U2 i (by omega)))
    · intro i hi
      exact ⟨U1.getD i 0, U2.getD i 0, exponent_value_lt U1 i (by omega),
        exponent_value_lt U2 i (by omega), exponent_value_range_map _ n i hi⟩
  · rintro ⟨i, a, b, hi, ha, hb, hbad⟩
    rw [quotient_unit, if_neg hne, h1]
    refine UnitOperator_binary_overflow U1 U2 helper.op.difference (fun a b => a - b) n
      (by omega) (by omega) (difference_eq U1 U2) ⟨i, hi, ?_⟩
    rw [exponent_value_lt U1 i (by omega)] at ha
    rw [exponent_value_lt U2 i (by omega)] at hb
    cases ha; cases hb
    exact hbad

/-- C2 (witness): the theorem applied to `Unit<1,1,-2,0>` and `Unit<0,0,1,0>`. -/
theorem quotient_unit_elementwise_difference_witness :
    ∃ R, quotient_unit [1, 1, -2, 0] [0, 0, 1, 0] = some R ∧ Unit.exponent_count R = 4 ∧
      Unit.exponent_value R 2 = some (-3) := by
  obtain ⟨R, hR, hc, he⟩ := (quotient_unit_elementwise_difference [1, 1, -2, 0] [0, 0, 1, 0] 4
    (by decide) (by decide) (by decide)).1 (by
      intro i a b hi ha hb
      rw [exponent_value_lt _ i (by simpa using hi)] at ha hb
      cases ha; cases hb
      interval_cases i <;> decide)
  refine ⟨R, hR, hc, ?_⟩
  obtain ⟨a, b, ha, hb, hab⟩ := he 2 (by decide)
  rw [show Unit.exponent_value [1, 1, -2, 0] ((2 : Nat) : Int) = some (-2) from by decide] at ha
  rw [show Unit.exponent_value [0, 0, 1, 0] ((2 : Nat) : Int) = some 1 from by decide] at hb
  cases ha; cases hb
  exact hab

/-- C2 (counterexample): `Unit<2147483647>` and `Unit<-1>` are units with one
exponent each, yet `quotient_unit` of them is rejected, because the difference
of the exponents overflows `int` inside the constant expression. -/
theorem quotient_unit_overflow_rejected :
    Unit.wellFormed [2147483647] ∧ Unit.wellFormed [-1] ∧
      Unit.exponent_count [2147483647] = 1 ∧ Unit.exponent_count [-1] = 1 ∧
      quotient_unit [2147483647] [-1] = none := by
  decide

/-! ## Auxiliary facts on `multiply` and `raised_unit` -/

theorem narrowToInt_of_inInt (x : Int) (h : inInt x) : narrowToInt x = x := by
  unfold inInt INT_MIN INT_MAX at h
  unfold narrowToInt
  omega

theorem multiply_accept (U : Unit) (f : Fract) (i : Int) (e : Int)
    (he : Unit.exponent_value U i = some e) (hp : inIntMax (e * f.num)) (hd : 0 < f.den)
    (hdiv : f.den ∣ e * f.num) :
    helper.op.multiply U f i = some (narrowToInt (e * f.num / f.den)) := by
  have h0 : ¬ f.den = 0 := by omega
  have h1 : ¬ (e * f.num = INTMAX_MIN ∧ f.den = -1) := by intro h; omega
  have h2 : Int.tmod (e * f.num) f.den = 0 := Int.tmod_eq_zero_of_dvd hdiv
  simp only [helper.op.multiply, helper.exponent, he, checkedIntMax, if_pos hp, if_neg h0,
    if_neg h1, h2, ne_eq, not_true, if_false, Int.tdiv_eq_ediv_of_dvd hdiv]

theorem multiply_reject (U : Unit) (f : Fract) (i : Int) (e : Int)
    (he : Unit.exponent_value U i = some e) (hnd : ¬ f.den ∣ e * f.num) :
    helper.op.multiply U f i = none := by
  have h2 : Int.tmod (e * f.num) f.den ≠ 0 := fun h => hnd (Int.dvd_of_tmod_eq_zero h)
  simp only [helper.op.multiply, helper.exponent, he, checkedIntMax]
  by_cases hp : inIntMax (e * f.num)
  · simp only [if_pos hp]
    split_ifs <;> rfl
  · simp only [if_neg hp]

theorem multiply_overflow (U : Unit) (f : Fract) (i : Int) (e : Int)
    (he : Unit.exponent_value U i = some e) (hp : ¬ inIntMax (e * f.num)) :
    helper.op.multiply U f i = none := by
  simp only [helper.op.multiply, helper.exponent, he, checkedIntMax, if_neg hp]

theorem multiply_index_out (U : Unit) (f : Fract) (i : Int)
    (he : Unit.exponent_value U i = none) : helper.op.multiply U f i = none := by
  simp only [helper.op.multiply, helper.exponent, he]

/-- With a fraction in lowest terms, an exact quotient that fits `int` forces the
intermediate product to fit `intmax_t`. -/
theorem inIntMax_of_quotient_inInt (e num den : Int) (he : inInt e) (hd : 0 < den)
    (hg : Int.gcd num den = 1) (hdiv : den ∣ e * num) (hq : inInt (e * num / den)) :
    inIntMax (e * num) := by
  have hde : den ∣ e := Int.dvd_of_dvd_mul_left_of_gcd_one hdiv (by rw [Int.gcd_comm]; exact hg)
  obtain ⟨k, rfl⟩ := hde
  have hdne : den ≠ 0 := by omega
  have hquot : den * k * num / den = k * num := by
    rw [Int.mul_assoc, Int.mul_ediv_cancel_left _ hdne]
  rw [hquot] at hq
  unfold inInt INT_MIN INT_MAX at he hq
  unfold inIntMax INTMAX_MIN INTMAX_MAX
  by_cases hk : k = 0
  · subst hk; simp
  · have hk1 : 1 ≤ |k| := Int.one_le_abs hk
    have hnum : |num| ≤ |k * num| := by
      rw [abs_mul]; exact le_mul_of_one_le_left (abs_nonneg _) hk1
    have hq' : |k * num| ≤ 2147483648 := abs_le.mpr ⟨by omega, by omega⟩
    have he' : |den * k| ≤ 2147483648 := abs_le.mpr ⟨by omega, by omega⟩
    have hprod : |den * k * num| ≤ 2147483648 * 2147483648 := by
      rw [abs_mul]
      exact mul_le_mul he' (le_trans hnum hq') (abs_nonneg _) (by norm_num)
    have := abs_le.mp hprod
    constructor <;> omega

theorem raised_unit_accept (U : Unit) (f : Fract) (hn : 1 ≤ Unit.exponent_count U)
    (hd : 0 < f.den) (hp : ∀ i, i < U.length → inIntMax (U.getD i 0 * f.num))
    (hdiv : ∀ i, i < U.length → f.den ∣ U.getD i 0 * f.num) :
    raised_unit U f =
      some ((List.range U.length).map (fun i => narrowToInt (U.getD i 0 * f.num / f.den))) := by
  have hne : ¬ (Unit.exponent_count U = 0) := by omega
  rw [raised_unit, if_neg hne]
  have h := UnitOperator_some U f helper.op.multiply
    (fun i => narrowToInt (U.getD i 0 * f.num / f.den)) U.length []
    (fun i hi => multiply_accept U f i _ (exponent_value_lt U i hi) (hp i hi) hd (hdiv i hi))
  rw [List.append_nil] at h
  exact h

theorem raised_unit_reject (U : Unit) (f : Fract) (i : Nat) (hi : i < U.length)
    (h : helper.op.multiply U f i = none) : raised_unit U f = none := by
  unfold raised_unit
  split_ifs
  · rfl
  · exact UnitOperator_none U f helper.op.multiply _ [] ⟨i, hi, h⟩


theorem exponent_value_some_lt (U : Unit) (i : Nat) (e : Int)
    (h : Unit.exponent_value U (i : Int) = some e) : i < U.length ∧ e = U.getD i 0 := by
  rcases Nat.lt_or_ge i U.length with hi | hi
  · rw [exponent_value_lt U i hi] at h
    cases h
    exact ⟨hi, rfl⟩
  · rw [exponent_value_ge U i hi] at h
    cases h

theorem wellFormed_getD (U : Unit) (hU : Unit.wellFormed U) (i : Nat) (hi : i < U.length) :
    inInt (U.getD i 0) := by
  have h := exponent_value_lt U i hi
  rw [exponent_value_natCast] at h
  exact hU _ (List.getElem?_mem h)

theorem inIntMax_of_inInt_mul_one (e : Int) (h : inInt e) : inIntMax (e * 1) := by
  unfold inInt INT_MIN INT_MAX at h
  unfold inIntMax INTMAX_MIN INTMAX_MAX
  constructor <;> omega

/-- Rejection of `raised_unit` when no intermediate product overflows: it happens
exactly when some exponent times the numerator is not a multiple of the
denominator. -/
theorem raised_unit_none_iff (U : Unit) (f : Fract) (hn : 1 ≤ Unit.exponent_count U)
    (hd : 0 < f.den)
    (hp : ∀ (i : Nat) (e : Int), Unit.exponent_value U i = some e → inIntMax (e * f.num)) :
    raised_unit U f = none ↔
      ∃ (i : Nat) (e : Int), Unit.exponent_value U i = some e ∧ ¬ f.den ∣ e * f.num := by
  constructor
  · intro hnone
    by_contra hall
    have hdiv : ∀ i, i < U.length → f.den ∣ U.getD i 0 * f.num := by
      intro i hi
      by_contra hnd
      exact hall ⟨i, U.getD i 0, exponent_value_lt U i hi, hnd⟩
    have hacc := raised_unit_accept U f hn hd
      (fun i hi => hp i _ (exponent_value_lt U i hi)) hdiv
    rw [hacc] at hnone
    cases hnone
  · rintro ⟨i, e, he, hnd⟩
    have hi := (exponent_value_some_lt U i e he).1
    exact raised_unit_reject U f i hi (multiply_reject U f i e he hnd)

/-! ## C3 and C4: raising a unit to a rational power -/

/-- C3 (amended): for every unit `U` with `n ≥ 1` exponents and every rational
power `num/den` in lowest terms with `den > 0` such that, for every index, `den`
divides `e_i * num` and the exact quotient is representable in `int`,
`raised_unit<U, num/den>` has exactly `n` exponents and its exponent `r_i` at
every index satisfies `r_i * den = e_i * num`. -/
theorem raised_unit_exact (U : Unit) (fract : Fract) (n : Nat) (hn : 1 ≤ n)
    (hc : Unit.exponent_count U = n) (hU : Unit.wellFormed U) (hred : Fract.reduced fract)
    (hdiv : ∀ (i : Nat) (e : Int), i < n → Unit.exponent_value U i = some e →
      fract.den ∣ e * fract.num)
    (hfit : ∀ (i : Nat) (e : Int), i < n → Unit.exponent_value U i = some e →
      inInt (e * fract.num / fract.den)) :
    ∃ R, raised_unit U fract = some R ∧ Unit.exponent_count R = n ∧
      ∀ i : Nat, i < n → ∃ e r, Unit.exponent_value U i = some e ∧
        Unit.exponent_value R i = some r ∧ r * fract.den = e * fract.num := by
  have hl : U.length = n := hc
  have hdiv' : ∀ i, i < U.length → fract.den ∣ U.getD i 0 * fract.num :=
    fun i hi => hdiv i _ (by omega) (exponent_value_lt U i hi)
  have hfit' : ∀ i, i < U.length → inInt (U.getD i 0 * fract.num / fract.den) :=
    fun i hi => hfit i _ (by omega) (exponent_value_lt U i hi)
  have hp : ∀ i, i < U.length → inIntMax (U.getD i 0 * fract.num) :=
    fun i hi => inIntMax_of_quotient_inInt _ _ _ (wellFormed_getD U hU i hi) hred.1 hred.2
      (hdiv' i hi) (hfit' i hi)
  refine ⟨_, raised_unit_accept U fract (by rw [hc]; exact hn) hred.1 hp hdiv', ?_, ?_⟩
  · simp [Unit.exponent_count, hl]
  · intro i hi
    refine ⟨U.getD i 0, _, exponent_value_lt U i (by omega),
      exponent_value_range_map _ U.length i (by omega), ?_⟩
    rw [narrowToInt_of_inInt _ (hfit' i (by omega))]
    exact Int.ediv_mul_cancel (hdiv' i (by omega))

/-- C3 (witness): the square root of `Unit<2,2,-4,0>`. -/
theorem raised_unit_exact_witness :
    ∃ R, raised_unit [2, 2, -4, 0] ⟨1, 2⟩ = some R ∧ Unit.exponent_count R = 4 := by
  obtain ⟨R, hR, hcount, _⟩ := raised_unit_exact [2, 2, -4, 0] ⟨1, 2⟩ 4 (by decide) (by decide)
    (by decide) (by decide)
    (by
      intro i e hi he
      rw [exponent_value_lt _ i (by simpa using hi)] at he
      cases he
      interval_cases i <;> decide)
    (by
      intro i e hi he
      rw [exponent_value_lt _ i (by simpa using hi)] at he
      cases he
      interval_cases i <;> decide)
  exact ⟨R, hR, hcount⟩

/-- C3 (counterexample): for `Unit<1>` and the power `std::ratio<4294967296>`
(in lowest terms, denominator `1`, which divides every product),
`raised_unit` is accepted and has the exponent `0`: the quotient `4294967296` is
reduced modulo `2^32` when `value()` returns it as `int`, so
`r * den = e * num` fails. -/
theorem raised_unit_wraps_around :
    Unit.wellFormed [1] ∧ std_ratio 4294967296 1 = some ⟨4294967296, 1⟩ ∧
      Fract.reduced ⟨4294967296, 1⟩ ∧ (1 : Int) ∣ 1 * 4294967296 ∧
      raised_unit [1] ⟨4294967296, 1⟩ = some [0] ∧ ¬ ((0 : Int) * 1 = 1 * 4294967296) := by
  decide

/-- C4 (amended): for a unit `U` with at least one exponent and a power with
`den > 0` such that every product `e_i * num` is representable in `intmax_t`,
`raised_unit<U, num/den>` is rejected if and only if some `e_i * num` is not
divisible by `den`, whatever the sign of `e_i`; the square root (power `1/2`) of
a unit with at least one exponent is accepted exactly when every exponent is
even; the square root of `Unit<1,1,-2,0>`, and `sqrt` of a quantity of that
unit, is rejected. -/
theorem raised_unit_rejected_iff (U : Unit) (fract : Fract)
    (hn : 1 ≤ Unit.exponent_count U) (hd : 0 < fract.den)
    (hp : ∀ (i : Nat) (e : Int), Unit.exponent_value U i = some e →
      inIntMax (e * fract.num)) :
    (raised_unit U fract = none ↔
      ∃ (i : Nat) (e : Int), Unit.exponent_value U i = some e ∧ ¬ fract.den ∣ e * fract.num) ∧
    (Unit.wellFormed U →
      (raised_unit U ⟨1, 2⟩ ≠ none ↔
        ∀ (i : Nat) (e : Int), Unit.exponent_value U i = some e → (2 : Int) ∣ e)) ∧
    raised_unit [1, 1, -2, 0] ⟨1, 2⟩ = none ∧
    (∀ (α β : Type) (sqrtMag : α → β) (m : α),
      sqrt sqrtMag (⟨[1, 1, -2, 0], m⟩ : Quantity α) = none) := by
  refine ⟨raised_unit_none_iff U fract hn hd hp, ?_, by decide, ?_⟩
  · intro hU
    have hiff := raised_unit_none_iff U ⟨1, 2⟩ hn (by decide)
      (fun i e he => inIntMax_of_inInt_mul_one e
        (by
          obtain ⟨hi, rfl⟩ := exponent_value_some_lt U i e he
          exact wellFormed_getD U hU i hi))
    rw [Ne, hiff]
    constructor
    · intro h i e he
      by_contra hne
      exact h ⟨i, e, he, by simpa using hne⟩
    · rintro h ⟨i, e, he, hne⟩
      exact hne (by simpa using h i e he)
  · intro α β sqrtMag m
    have h : raised_unit [1, 1, -2, 0] ⟨1, 2⟩ = none := by decide
    simp only [sqrt, h]

/-- C4 (witness): the power `3/2` of `Unit<2,2,-4,0>` is accepted, every product
being a multiple of `2`. -/
theorem raised_unit_rejected_iff_witness :
    ¬ raised_unit [2, 2, -4, 0] ⟨3, 2⟩ = none := by
  have h := (raised_unit_rejected_iff [2, 2, -4, 0] ⟨3, 2⟩ (by decide) (by decide)
    (by
      intro i e he
      obtain ⟨hi, rfl⟩ := exponent_value_some_lt _ i e he
      have hi4 : i < 4 := by simpa using hi
      interval_cases i <;> decide)).1
  rw [h]
  rintro ⟨i, e, he, hnd⟩
  obtain ⟨hi, rfl⟩ := exponent_value_some_lt _ i e he
  have hi4 : i < 4 := by simpa using hi
  interval_cases i <;> revert hnd <;> decide

/-- C4 (counterexample): `raised_unit<Unit<2>, std::ratio<4611686018427387904>>`
is rejected although the denominator `1` divides the product: the product
`2 * 2^62` overflows `intmax_t` inside the `static_assert`.  Also,
`raised_unit<Unit<>, std::ratio<1,2>>` is rejected although the unit has no
exponent at all. -/
theorem raised_unit_rejected_though_divisible :
    (Unit.wellFormed [2] ∧ std_ratio 4611686018427387904 1 = some ⟨4611686018427387904, 1⟩ ∧
      (1 : Int) ∣ 2 * 4611686018427387904 ∧
      raised_unit [2] ⟨4611686018427387904, 1⟩ = none) ∧
    (Unit.exponent_count [] = 0 ∧ raised_unit [] ⟨1, 2⟩ = none) := by
  decide


/-! ## C5, C6, C7: operators on quantities -/

theorem unit_eq_iff (U1 U2 : Unit) :
    U1 = U2 ↔ (Unit.exponent_count U1 = Unit.exponent_count U2 ∧
      ∀ i : Nat, Unit.exponent_value U1 i = Unit.exponent_value U2 i) := by
  constructor
  · intro h
    subst h
    exact ⟨rfl, fun _ => rfl⟩
  · rintro ⟨_, h⟩
    apply List.ext_getElem?
    intro i
    have hi := h i
    rw [exponent_value_natCast, exponent_value_natCast] at hi
    exact hi

/-- C5: `l + r` and `l - r` are defined exactly when `l` and `r` have the same
unit, which means the same exponent count and the same exponent at every
position; when defined the result has that unit and the magnitude
`l.magnitude() + r.magnitude()`, respectively `l.magnitude() - r.magnitude()`.
The operands are values taken by reference to const: the operators are
functions of them and change neither. -/
theorem operator_plus_minus_same_unit {α β γ : Type} [HAdd α β γ] [HSub α β γ]
    (l : Quantity α) (r : Quantity β) :
    ((operator_plus l r : Option (Quantity γ)) ≠ none ↔ l.unit = r.unit) ∧
    ((operator_minus l r : Option (Quantity γ)) ≠ none ↔ l.unit = r.unit) ∧
    (l.unit = r.unit ↔ (Unit.exponent_count l.unit = Unit.exponent_count r.unit ∧
      ∀ i : Nat, Unit.exponent_value l.unit i = Unit.exponent_value r.unit i)) ∧
    (l.unit = r.unit →
      (operator_plus l r : Option (Quantity γ)) =
        some ⟨l.unit, l.magnitude + r.magnitude⟩ ∧
      (operator_minus l r : Option (Quantity γ)) =
        some ⟨l.unit, l.magnitude - r.magnitude⟩) := by
  refine ⟨?_, ?_, unit_eq_iff l.unit r.unit, ?_⟩
  · by_cases h : l.unit = r.unit <;> simp [operator_plus, h]
  · by_cases h : l.unit = r.unit <;> simp [operator_minus, h]
  · intro h
    simp [operator_plus, operator_minus, h]

theorem quotient_unit_self (U : Unit) (hn : 1 ≤ Unit.exponent_count U) :
    quotient_unit U U = some (List.replicate (Unit.exponent_count U) 0) := by
  have hne : ¬ (Unit.exponent_count U = 0) := by omega
  rw [quotient_unit, if_neg hne]
  have h := UnitOperator_binary_accept U U helper.op.difference (fun a b => a - b)
    U.length (le_refl _) (le_refl _) (difference_eq U U)
    (fun i _ => by
      show inInt (U.getD i 0 - U.getD i 0)
      rw [Int.sub_self]
      decide)
  rw [show Unit.exponent_count U = U.length from rfl, h]
  simp

/-- C6 (amended): for all quantities `l` of unit `LU` and `r` of unit `RU`,
`l * r` is defined exactly when `product_unit<LU,RU>` is and then has that unit
and the magnitude `l.magnitude() * r.magnitude()`; `l / r` is defined exactly
when `quotient_unit<LU,RU>` is and then has that unit and the magnitude
`l.magnitude() / r.magnitude()`; for a unit `U` with at least one exponent,
`quotient_unit<U,U>` has every exponent `0` and dividing two quantities of unit
`U` yields a quantity of that all-zero unit. -/
theorem operator_mul_div_units {α β γ : Type} [HMul α β γ] [HDiv α β γ]
    (l : Quantity α) (r : Quantity β) :
    ((operator_mul l r : Option (Quantity γ)) =
      (product_unit l.unit r.unit).map (fun u => ⟨u, l.magnitude * r.magnitude⟩)) ∧
    ((operator_div l r : Option (Quantity γ)) =
      (quotient_unit l.unit r.unit).map (fun u => ⟨u, l.magnitude / r.magnitude⟩)) ∧
    (1 ≤ Unit.exponent_count l.unit → l.unit = r.unit →
      quotient_unit l.unit l.unit = some (List.replicate (Unit.exponent_count l.unit) 0) ∧
      (operator_div l r : Option (Quantity γ)) =
        some ⟨List.replicate (Unit.exponent_count l.unit) 0, l.magnitude / r.magnitude⟩) := by
  refine ⟨?_, ?_, ?_⟩
  · unfold operator_mul
    cases product_unit l.unit r.unit <;> rfl
  · unfold operator_div
    cases quotient_unit l.unit r.unit <;> rfl
  · intro hn h
    refine ⟨quotient_unit_self l.unit hn, ?_⟩
    unfold operator_div
    rw [← h, quotient_unit_self l.unit hn]

/-- C6 (witness): `-4 N / 5 N` over integer magnitudes, `N = Unit<1,1,-2,0>`. -/
theorem operator_mul_div_units_witness :
    (operator_div (⟨[1, 1, -2, 0], -4⟩ : Quantity Int) (⟨[1, 1, -2, 0], 5⟩ : Quantity Int)
      : Option (Quantity Int)) = some ⟨[0, 0, 0, 0], -4 / 5⟩ :=
  ((operator_mul_div_units (⟨[1, 1, -2, 0], -4⟩ : Quantity Int)
    (⟨[1, 1, -2, 0], 5⟩ : Quantity Int)).2.2 (by decide) rfl).2

/-- C6 (counterexample): for the unit `Unit<>` without exponents,
`quotient_unit<Unit<>,Unit<>>` is rejected, and so is the division of two
quantities of that unit: no dimensionless quantity is produced.  Likewise the
product of a quantity of unit `Unit<2147483647>` and one of unit `Unit<1>` is
rejected together with `product_unit` of the two units. -/
theorem operator_div_empty_unit_rejected :
    (Unit.exponent_count [] = Unit.exponent_count [] ∧ quotient_unit [] [] = none ∧
      (operator_div (⟨[], 1⟩ : Quantity Int) (⟨[], 1⟩ : Quantity Int)
        : Option (Quantity Int)) = none) ∧
    (Unit.exponent_count [2147483647] = Unit.exponent_count [1] ∧
      (operator_mul (⟨[2147483647], 1⟩ : Quantity Int) (⟨[1], 1⟩ : Quantity Int)
        : Option (Quantity Int)) = none) := by
  refine ⟨⟨rfl, rfl, rfl⟩, rfl, ?_⟩
  have h : product_unit [2147483647] [1] = none := by decide
  simp only [operator_mul, h]

/-- C7: each of `<`, `<=`, `>`, `>=`, `==`, `!=` is defined exactly when both
quantities have the same unit and then returns the same comparison of the two
magnitudes; for totally ordered magnitudes exactly one of `l < r`, `l == r`,
`l > r` holds, `!=` negates `==`, `<=` negates `>` and `>=` negates `<`. -/
theorem relational_operators_same_unit {α : Type} [LinearOrder α] (l r : Quantity α) :
    ((operator_lt l r ≠ none ↔ l.unit = r.unit) ∧ (operator_le l r ≠ none ↔ l.unit = r.unit) ∧
      (operator_gt l r ≠ none ↔ l.unit = r.unit) ∧ (operator_ge l r ≠ none ↔ l.unit = r.unit) ∧
      (operator_eq l r ≠ none ↔ l.unit = r.unit) ∧
      (operator_ne l r ≠ none ↔ l.unit = r.unit)) ∧
    (l.unit = r.unit →
      (operator_lt l r = some (decide (l.magnitude < r.magnitude)) ∧
        operator_le l r = some (decide (l.magnitude ≤ r.magnitude)) ∧
        operator_gt l r = some (decide (l.magnitude > r.magnitude)) ∧
        operator_ge l r = some (decide (l.magnitude ≥ r.magnitude)) ∧
        operator_eq l r = some (decide (l.magnitude = r.magnitude)) ∧
        operator_ne l r = some (decide (l.magnitude ≠ r.magnitude))) ∧
      ((operator_lt l r = some true ∧ operator_eq l r = some false ∧
          operator_gt l r = some false) ∨
        (operator_lt l r = some false ∧ operator_eq l r = some true ∧
          operator_gt l r = some false) ∨
        (operator_lt l r = some false ∧ operator_eq l r = some false ∧
          operator_gt l r = some true)) ∧
      operator_ne l r = (operator_eq l r).map not ∧
      operator_le l r = (operator_gt l r).map not ∧
      operator_ge l r = (operator_lt l r).map not) := by
  constructor
  · by_cases h : l.unit = r.unit <;>
      simp [operator_lt, operator_le, operator_gt, operator_ge, operator_eq, operator_ne, h]
  · intro h
    refine ⟨?_, ?_, ?_, ?_, ?_⟩
    · simp [operator_lt, operator_le, operator_gt, operator_ge, operator_eq, operator_ne, h]
    · rcases lt_trichotomy l.magnitude r.magnitude with hlt | heq | hgt
      · left
        simp [operator_lt, operator_gt, operator_eq, h, hlt, ne_of_lt hlt, le_of_lt hlt]
      · right; left
        simp [operator_lt, operator_gt, operator_eq, h, heq]
      · right; right
        simp [operator_lt, operator_gt, operator_eq, h, hgt, ne_of_gt hgt, le_of_lt hgt]
    · simp [operator_ne, operator_eq, h]
    · simp only [operator_le, operator_gt, h, if_true, Option.map_some', gt_iff_lt]
      by_cases hc : r.magnitude < l.magnitude
      · simp [hc]
      · simp [hc, not_lt.mp hc]
    · simp only [operator_ge, operator_lt, h, if_true, Option.map_some', ge_iff_le]
      by_cases hc : l.magnitude < r.magnitude
      · simp [hc]
      · simp [hc, not_lt.mp hc]


/-! ## C8: operands with different exponent counts -/

theorem UnitOperator_congr {β : Type} (U1 : Unit) (U2 V2 : β)
    (Op : Unit → β → Int → Option Int) (k : Nat) :
    ∀ acc : List Int, (∀ i : Nat, i < k → Op U1 U2 (i : Int) = Op U1 V2 (i : Int)) →
      helper.op.UnitOperator U1 U2 Op k acc = helper.op.UnitOperator U1 V2 Op k acc := by
  induction k with
  | zero => intro acc _; rfl
  | succ k ih =>
    intro acc h
    unfold helper.op.UnitOperator
    rw [h k (Nat.lt_succ_self k)]
    cases Op U1 V2 (k : Int) with
    | none => rfl
    | some v => exact ih (v :: acc) (fun i hi => h i (Nat.lt_succ_of_lt hi))

theorem exponent_value_take (U : Unit) (n i : Nat) (hi : i < n) :
    Unit.exponent_value (U.take n) (i : Int) = Unit.exponent_value U (i : Int) := by
  rw [exponent_value_natCast, exponent_value_natCast, List.getElem?_take_of_lt hi]

theorem sum_second_none (U1 U2 : Unit) (i : Int) (h : Unit.exponent_value U2 i = none) :
    helper.op.sum U1 U2 i = none := by
  unfold helper.op.sum
  rw [h]
  cases Unit.exponent_value U1 i <;> rfl

theorem difference_second_none (U1 U2 : Unit) (i : Int)
    (h : Unit.exponent_value U2 i = none) : helper.op.difference U1 U2 i = none := by
  unfold helper.op.difference
  rw [h]
  cases Unit.exponent_value U1 i <;> rfl

/-- C8 (amended): for units `U1`, `U2` with different exponent counts,
`product_unit<U1,U2>` and `quotient_unit<U1,U2>` are rejected when `U2` has fewer
exponents than `U1`; when `U2` has more exponents than `U1` they are not rejected
on that account: the surplus exponents of `U2` are never read and the result is
the one obtained from `U1` and the first `exponent_count(U1)` exponents of
`U2`. -/
theorem product_quotient_unit_count_mismatch (U1 U2 : Unit) :
    (Unit.exponent_count U2 < Unit.exponent_count U1 →
      product_unit U1 U2 = none ∧ quotient_unit U1 U2 = none) ∧
    (Unit.exponent_count U1 < Unit.exponent_count U2 →
      product_unit U1 U2 = product_unit U1 (U2.take (Unit.exponent_count U1)) ∧
      quotient_unit U1 U2 = quotient_unit U1 (U2.take (Unit.exponent_count U1))) := by
  constructor
  · intro h
    have hlt : U2.length < U1.length := h
    have hne : ¬ (Unit.exponent_count U1 = 0) := by
      change ¬ (U1.length = 0)
      omega
    constructor
    · rw [product_unit, if_neg hne]
      exact UnitOperator_none U1 U2 helper.op.sum _ []
        ⟨U2.length, hlt, sum_second_none U1 U2 _ (exponent_value_ge U2 _ (le_refl _))⟩
    · rw [quotient_unit, if_neg hne]
      exact UnitOperator_none U1 U2 helper.op.difference _ []
        ⟨U2.length, hlt, difference_second_none U1 U2 _ (exponent_value_ge U2 _ (le_refl _))⟩
  · intro _
    constructor
    · unfold product_unit
      split_ifs
      · rfl
      · refine UnitOperator_congr U1 U2 _ helper.op.sum _ [] (fun i hi => ?_)
        unfold helper.op.sum
        rw [exponent_value_take U2 _ i hi]
    · unfold quotient_unit
      split_ifs
      · rfl
      · refine UnitOperator_congr U1 U2 _ helper.op.difference _ [] (fun i hi => ?_)
        unfold helper.op.difference
        rw [exponent_value_take U2 _ i hi]

/-- C8 (witness): `Unit<1,2>` against the shorter `Unit<1>` is rejected. -/
theorem product_quotient_unit_count_mismatch_witness :
    product_unit [1, 2] [1] = none ∧ quotient_unit [1, 2] [1] = none :=
  (product_quotient_unit_count_mismatch [1, 2] [1]).1 (by decide)

/-- C8 (counterexample): `Unit<1>` has one exponent and `Unit<1,2>` has two, yet
`product_unit<Unit<1>,Unit<1,2>>` is `Unit<2>` and
`quotient_unit<Unit<1>,Unit<1,2>>` is `Unit<0>`: a longer right operand is
accepted. -/
theorem product_quotient_unit_longer_right_accepted :
    Unit.exponent_count [1] ≠ Unit.exponent_count [1, 2] ∧
      product_unit [1] [1, 2] = some [2] ∧ quotient_unit [1] [1, 2] = some [0] := by
  decide

/-! ## C9: basis units -/

theorem BaseUnitGen_eq (k : Nat) (index : Int) :
    ∀ acc : List Int, helper.baseunit.BaseUnitGen k index acc =
      (List.range k).map (fun i : Nat => if (i : Int) = index then 1 else 0) ++ acc := by
  induction k with
  | zero => intro acc; simp [helper.baseunit.BaseUnitGen]
  | succ k ih =>
    intro acc
    simp [helper.baseunit.BaseUnitGen, ih, List.range_succ]

/-- C9: for `0 ≤ d ≤ last`, `BaseUnit<d, last>` is the unit with exactly
`last + 1` exponents whose exponent at index `d` is `1` and whose exponent at
every other index is `0`; the seven SI base units `u::meter` .. `u::candela` are
the seven pairwise distinct basis vectors of length seven. -/
theorem BaseUnit_basis_vector (d last : Int) (h0 : 0 ≤ d) (hl : d ≤ last) :
    (∃ U, BaseUnit d last = some U ∧ (Unit.exponent_count U : Int) = last + 1 ∧
      Unit.exponent_value U d = some 1 ∧
      ∀ i : Int, 0 ≤ i → i ≤ last → i ≠ d → Unit.exponent_value U i = some 0) ∧
    (u.meter = some [1, 0, 0, 0, 0, 0, 0] ∧ u.kilogram = some [0, 1, 0, 0, 0, 0, 0] ∧
      u.second = some [0, 0, 1, 0, 0, 0, 0] ∧ u.ampere = some [0, 0, 0, 1, 0, 0, 0] ∧
      u.kelvin = some [0, 0, 0, 0, 1, 0, 0] ∧ u.mole = some [0, 0, 0, 0, 0, 1, 0] ∧
      u.candela = some [0, 0, 0, 0, 0, 0, 1] ∧
      List.Pairwise (fun a b => a ≠ b)
        [u.meter, u.kilogram, u.second, u.ampere, u.kelvin, u.mole, u.candela]) := by
  refine ⟨?_, by decide⟩
  have hnl : ¬ (last < -1) := by omega
  have hB : BaseUnit d last = some ((List.range (last + 1).toNat).map
      (fun i : Nat => if (i : Int) = d then 1 else 0)) := by
    rw [BaseUnit, if_neg hnl, BaseUnitGen_eq, List.append_nil]
  refine ⟨_, hB, ?_, ?_, ?_⟩
  · rw [Unit.exponent_count, List.length_map, List.length_range]
    omega
  · obtain ⟨k, rfl⟩ := Int.eq_ofNat_of_zero_le h0
    rw [exponent_value_range_map _ _ k (by omega)]
    simp
  · intro i hi0 hil hid
    obtain ⟨k, rfl⟩ := Int.eq_ofNat_of_zero_le hi0
    rw [exponent_value_range_map _ _ k (by omega)]
    simp [hid]

/-- C9 (witness): `BaseUnit<3, 6>`, the unit `u::ampere`. -/
theorem BaseUnit_basis_vector_witness :
    ∃ U, BaseUnit 3 6 = some U ∧ (Unit.exponent_count U : Int) = 6 + 1 ∧
      Unit.exponent_value U 3 = some 1 := by
  obtain ⟨U, hU, hc, h1, _⟩ := (BaseUnit_basis_vector 3 6 (by decide) (by decide)).1
  exact ⟨U, hU, hc, h1⟩

/-! ## C10: powers zero and one -/

theorem map_getD_range (U : List Int) :
    (List.range U.length).map (fun i => U.getD i 0) = U := by
  apply List.ext_getElem?
  intro i
  rcases Nat.lt_or_ge i U.length with hi | hi
  · simp [List.getElem?_range hi, List.getElem?_eq_getElem hi, hi]
  · rw [List.getElem?_eq_none (by simpa using hi), List.getElem?_eq_none hi]

/-- C10: for every unit `U` with `n ≥ 1` exponents, `raised_unit<U, std::ratio<0>>`
is defined and is the all-zero unit with `n` exponents, and
`raised_unit<U, std::ratio<1>>` is defined and is `U`; hence `pow<std::ratio<0>>(q)`
is a dimensionless quantity and `pow<std::ratio<1>>(q)` has the unit of `q`, for
every quantity `q` of unit `U`. -/
theorem raised_unit_zero_one (U : Unit) (n : Nat) (hn : 1 ≤ n)
    (hc : Unit.exponent_count U = n) (hU : Unit.wellFormed U) :
    (std_ratio 0 1 = some ⟨0, 1⟩ ∧ std_ratio 1 1 = some ⟨1, 1⟩) ∧
    raised_unit U ⟨0, 1⟩ = some (List.replicate n 0) ∧
    raised_unit U ⟨1, 1⟩ = some U ∧
    (∀ (α β : Type) (pow_impl : Fract → α → β) (q : Quantity α), q.unit = U →
      pow pow_impl ⟨0, 1⟩ q = some ⟨List.replicate n 0, pow_impl ⟨0, 1⟩ q.magnitude⟩ ∧
      pow pow_impl ⟨1, 1⟩ q = some ⟨U, pow_impl ⟨1, 1⟩ q.magnitude⟩) := by
  have hl : U.length = n := hc
  have hn' : 1 ≤ Unit.exponent_count U := by rw [hc]; exact hn
  have h0 : raised_unit U ⟨0, 1⟩ = some (List.replicate n 0) := by
    rw [raised_unit_accept U ⟨0, 1⟩ hn' (by decide)
      (fun i _ => by show inIntMax (U.getD i 0 * 0); rw [Int.mul_zero]; decide)
      (fun i _ => by show (1 : Int) ∣ U.getD i 0 * 0; exact one_dvd _)]
    have hz : (fun i : Nat => narrowToInt (U.getD i 0 * (⟨0, 1⟩ : Fract).num /
        (⟨0, 1⟩ : Fract).den)) = fun _ => 0 := by
      funext i
      show narrowToInt (U.getD i 0 * 0 / 1) = 0
      rw [Int.mul_zero]
      decide
    rw [hz, hl]
    simp
  have h1 : raised_unit U ⟨1, 1⟩ = some U := by
    rw [raised_unit_accept U ⟨1, 1⟩ hn' (by decide)
      (fun i hi => inIntMax_of_inInt_mul_one _ (wellFormed_getD U hU i hi))
      (fun i _ => by show (1 : Int) ∣ U.getD i 0 * 1; exact one_dvd _)]
    have hmap : (List.range U.length).map (fun i : Nat =>
        narrowToInt (U.getD i 0 * (⟨1, 1⟩ : Fract).num / (⟨1, 1⟩ : Fract).den)) =
        (List.range U.length).map (fun i => U.getD i 0) := by
      apply List.map_congr_left
      intro i hi
      have hi' : i < U.length := List.mem_range.mp hi
      show narrowToInt (U.getD i 0 * 1 / 1) = U.getD i 0
      rw [Int.mul_one, Int.ediv_one]
      exact narrowToInt_of_inInt _ (wellFormed_getD U hU i hi')
    rw [hmap, map_getD_range]
  refine ⟨by decide, h0, h1, ?_⟩
  intro α β pow_impl q hq
  constructor
  · simp only [pow, hq, h0]
  · simp only [pow, hq, h1]

/-- C10 (witness): the powers `0` and `1` of `Unit<1,1,-2,0>`. -/
theorem raised_unit_zero_one_witness :
    raised_unit [1, 1, -2, 0] ⟨0, 1⟩ = some [0, 0, 0, 0] ∧
      raised_unit [1, 1, -2, 0] ⟨1, 1⟩ = some [1, 1, -2, 0] :=
  have h := raised_unit_zero_one [1, 1, -2, 0] 4 (by decide) (by decide) (by decide)
  ⟨h.2.1, h.2.2.1⟩


/-! ## Auxiliary facts on units built by the elementwise operators -/

theorem getD_range_map (f : Nat → Int) (n i : Nat) (hi : i < n) :
    ((List.range n).map f).getD i 0 = f i := by
  have h := exponent_value_range_map f n i hi
  rw [exponent_value_natCast] at h
  rw [List.getD_eq_getElem?_getD, h]
  rfl

theorem getD_replicate_zero (n i : Nat) : (List.replicate n (0 : Int)).getD i 0 = 0 := by
  rw [List.getD_eq_getElem?_getD, List.getElem?_replicate]
  split_ifs <;> rfl

/-- The exact condition under which `product_unit` denotes a unit, and the unit
it denotes. -/
theorem product_unit_eq_some_iff (U1 U2 P : Unit) :
    product_unit U1 U2 = some P ↔
      (1 ≤ U1.length ∧ U1.length ≤ U2.length ∧
        (∀ i, i < U1.length → inInt (U1.getD i 0 + U2.getD i 0)) ∧
        P = (List.range U1.length).map (fun i => U1.getD i 0 + U2.getD i 0)) := by
  by_cases h0 : Unit.exponent_count U1 = 0
  · have hl : U1.length = 0 := h0
    rw [product_unit, if_pos h0]
    constructor
    · intro h; cases h
    · rintro ⟨h1, _⟩; omega
  · have hl : ¬ U1.length = 0 := h0
    rw [product_unit, if_neg h0]
    change helper.op.UnitOperator U1 U2 helper.op.sum U1.length [] = some P ↔ _
    by_cases h2 : U1.length ≤ U2.length
    · by_cases hr : ∀ i, i < U1.length → inInt (U1.getD i 0 + U2.getD i 0)
      · rw [UnitOperator_binary_accept U1 U2 helper.op.sum (fun a b => a + b) U1.length
          (le_refl _) h2 (sum_eq U1 U2) hr]
        constructor
        · intro h
          cases h
          exact ⟨by omega, h2, hr, rfl⟩
        · rintro ⟨_, _, _, rfl⟩
          rfl
      · have hex : ∃ i, i < U1.length ∧ ¬ inInt (U1.getD i 0 + U2.getD i 0) := by
          by_contra hne
          exact hr (fun i hi => by
            by_contra hbad
            exact hne ⟨i, hi, hbad⟩)
        rw [UnitOperator_binary_overflow U1 U2 helper.op.sum (fun a b => a + b) U1.length
          (le_refl _) h2 (sum_eq U1 U2) hex]
        constructor
        · intro h; cases h
        · rintro ⟨_, _, hr', _⟩; exact absurd hr' hr
    · have hlt : U2.length < U1.length := by omega
      rw [UnitOperator_none U1 U2 helper.op.sum _ []
        ⟨U2.length, hlt, sum_second_none U1 U2 _ (exponent_value_ge U2 _ (le_refl _))⟩]
      constructor
      · intro h; cases h
      · rintro ⟨_, h2', _⟩; exact absurd h2' h2

theorem product_unit_length (U1 U2 P : Unit) (h : product_unit U1 U2 = some P) :
    P.length = U1.length := by
  obtain ⟨_, _, _, rfl⟩ := (product_unit_eq_some_iff U1 U2 P).mp h
  simp

theorem product_unit_comm (U1 U2 : Unit) (h : U1.length = U2.length) :
    product_unit U1 U2 = product_unit U2 U1 := by
  cases h12 : product_unit U1 U2 with
  | none =>
    cases h21 : product_unit U2 U1 with
    | none => rfl
    | some Q =>
      obtain ⟨a, b, c, d⟩ := (product_unit_eq_some_iff U2 U1 Q).mp h21
      have : product_unit U1 U2 = some Q := by
        rw [product_unit_eq_some_iff]
        refine ⟨by omega, by omega, fun i hi => ?_, ?_⟩
        · rw [Int.add_comm]; exact c i (by omega)
        · rw [d, h]
          apply List.map_congr_left
          intro i _
          exact Int.add_comm _ _
      rw [this] at h12
      cases h12
  | some P =>
    obtain ⟨a, b, c, d⟩ := (product_unit_eq_some_iff U1 U2 P).mp h12
    symm
    rw [product_unit_eq_some_iff]
    refine ⟨by omega, by omega, fun i hi => ?_, ?_⟩
    · rw [Int.add_comm]; exact c i (by omega)
    · rw [d, h]
      apply List.map_congr_left
      intro i _
      exact Int.add_comm _ _

/-! ## C11: `square` and `cube` against repeated products -/

/-- C11: `square(a)` is `a*a` and `cube(a)` is `(a*a)*a` as expressions: they are
defined together and then equal, with unit `product_unit<U,U>` and magnitude
`m*m`, respectively unit `product_unit<product_unit<U,U>,U>` and magnitude
`(m*m)*m`; and `product_unit<product_unit<U,U>,U>` is the same unit as
`product_unit<U,product_unit<U,U>>`. -/
theorem square_cube_repeated_product {α : Type} [Mul α] (a : Quantity α) :
    (square a : Option (Quantity α)) = operator_mul a a ∧
    (cube a : Option (Quantity α)) =
      (operator_mul a a : Option (Quantity α)).bind (fun s => operator_mul s a) ∧
    onUnits product_unit (product_unit a.unit a.unit) (some a.unit) =
      onUnits product_unit (some a.unit) (product_unit a.unit a.unit) ∧
    (∀ P, product_unit a.unit a.unit = some P →
      (square a : Option (Quantity α)) = some ⟨P, a.magnitude * a.magnitude⟩ ∧
      ∀ C, product_unit P a.unit = some C →
        (cube a : Option (Quantity α)) =
          some ⟨C, a.magnitude * a.magnitude * a.magnitude⟩ ∧
        product_unit a.unit P = some C) := by
  refine ⟨rfl, ?_, ?_, ?_⟩
  · unfold cube operator_mul
    cases h : product_unit a.unit a.unit with
    | none => rfl
    | some p =>
      simp only [Option.bind]
      cases product_unit p a.unit <;> rfl
  · cases h : product_unit a.unit a.unit with
    | none => rfl
    | some P =>
      simp only [onUnits]
      exact product_unit_comm P a.unit (product_unit_length _ _ _ h)
  · intro P hP
    refine ⟨by simp only [square, hP], ?_⟩
    intro C hC
    refine ⟨by simp only [cube, hP, hC], ?_⟩
    rw [← product_unit_comm P a.unit (product_unit_length _ _ _ hP)]
    exact hC

/-- C11 (witness): the square and the cube of `-7 N`, `N = Unit<1,1,-2,0>`. -/
theorem square_cube_repeated_product_witness :
    (square (⟨[1, 1, -2, 0], -7⟩ : Quantity Int) : Option (Quantity Int)) =
      some ⟨[2, 2, -4, 0], 49⟩ ∧
    (cube (⟨[1, 1, -2, 0], -7⟩ : Quantity Int) : Option (Quantity Int)) =
      some ⟨[3, 3, -6, 0], -343⟩ :=
  have h := (square_cube_repeated_product (⟨[1, 1, -2, 0], -7⟩ : Quantity Int)).2.2.2
    [2, 2, -4, 0] (by decide)
  ⟨h.1, (h.2 [3, 3, -6, 0] (by decide)).1⟩


/-! ## C12: rational powers against repeated products -/

theorem inInt_of_inInt_double (e : Int) (h : inInt (e + e)) : inInt e := by
  unfold inInt INT_MIN INT_MAX at *
  constructor <;> omega

theorem raised_unit_two_of_product (U P : Unit) (hP : product_unit U U = some P) :
    raised_unit U ⟨2, 1⟩ = some P := by
  obtain ⟨h1, _, hr, rfl⟩ := (product_unit_eq_some_iff U U P).mp hP
  rw [raised_unit_accept U ⟨2, 1⟩ h1 (by decide)
    (fun i hi => by
      have h := hr i hi
      show inIntMax (U.getD i 0 * 2)
      unfold inInt INT_MIN INT_MAX at h
      unfold inIntMax INTMAX_MIN INTMAX_MAX
      constructor <;> omega)
    (fun i _ => by show (1 : Int) ∣ U.getD i 0 * 2; exact one_dvd _)]
  congr 1
  apply List.map_congr_left
  intro i hi
  have hi' : i < U.length := List.mem_range.mp hi
  show narrowToInt (U.getD i 0 * 2 / 1) = U.getD i 0 + U.getD i 0
  rw [Int.ediv_one]
  have he : U.getD i 0 * 2 = U.getD i 0 + U.getD i 0 := by omega
  rw [he]
  exact narrowToInt_of_inInt _ (hr i hi')

theorem raised_unit_half_of_product (U P : Unit) (hP : product_unit U U = some P) :
    raised_unit P ⟨1, 2⟩ = some U := by
  obtain ⟨h1, _, hr, hPeq⟩ := (product_unit_eq_some_iff U U P).mp hP
  have hlen : P.length = U.length := product_unit_length U U P hP
  have hget : ∀ i, i < U.length → P.getD i 0 = U.getD i 0 + U.getD i 0 := by
    intro i hi
    rw [hPeq]
    exact getD_range_map _ _ i hi
  rw [raised_unit_accept P ⟨1, 2⟩ (by show 1 ≤ P.length; omega) (by decide)
    (fun i hi => inIntMax_of_inInt_mul_one _ (by rw [hget i (by omega)]; exact hr i (by omega)))
    (fun i hi => by
      show (2 : Int) ∣ P.getD i 0 * 1
      rw [hget i (by omega), Int.mul_one, ← Int.two_mul]
      exact Int.dvd_mul_right _ _)]
  rw [hlen]
  have hmap : (List.range U.length).map (fun i : Nat =>
      narrowToInt (P.getD i 0 * (⟨1, 2⟩ : Fract).num / (⟨1, 2⟩ : Fract).den)) =
      (List.range U.length).map (fun i => U.getD i 0) := by
    apply List.map_congr_left
    intro i hi
    have hi' : i < U.length := List.mem_range.mp hi
    show narrowToInt (P.getD i 0 * 1 / 2) = U.getD i 0
    rw [hget i hi', Int.mul_one, ← Int.two_mul,
      Int.mul_ediv_cancel_left _ (by decide : (2 : Int) ≠ 0)]
    exact narrowToInt_of_inInt _ (inInt_of_inInt_double _ (hr i hi'))
  rw [hmap, map_getD_range]

theorem raised_unit_three_of_product (U P C : Unit) (hP : product_unit U U = some P)
    (hC : product_unit P U = some C) : raised_unit U ⟨3, 1⟩ = some C := by
  obtain ⟨h1, _, hr, hPeq⟩ := (product_unit_eq_some_iff U U P).mp hP
  have hlen : P.length = U.length := product_unit_length U U P hP
  have hget : ∀ i, i < U.length → P.getD i 0 = U.getD i 0 + U.getD i 0 := by
    intro i hi
    rw [hPeq]
    exact getD_range_map _ _ i hi
  obtain ⟨_, _, hr3, rfl⟩ := (product_unit_eq_some_iff P U C).mp hC
  rw [raised_unit_accept U ⟨3, 1⟩ h1 (by decide)
    (fun i hi => by
      have h := hr i hi
      show inIntMax (U.getD i 0 * 3)
      unfold inInt INT_MIN INT_MAX at h
      unfold inIntMax INTMAX_MIN INTMAX_MAX
      constructor <;> omega)
    (fun i _ => by show (1 : Int) ∣ U.getD i 0 * 3; exact one_dvd _)]
  rw [hlen]
  congr 1
  apply List.map_congr_left
  intro i hi
  have hi' : i < U.length := List.mem_range.mp hi
  show narrowToInt (U.getD i 0 * 3 / 1) = P.getD i 0 + U.getD i 0
  have h3 := hr3 i (by omega)
  rw [hget i hi'] at h3 ⊢
  rw [Int.ediv_one]
  have he : U.getD i 0 * 3 = U.getD i 0 + U.getD i 0 + U.getD i 0 := by omega
  rw [he]
  exact narrowToInt_of_inInt _ h3

/-- C12 (amended): for every unit `U` for which `product_unit<U,U>` is defined,
`raised_unit<U, std::ratio<2>>` equals `product_unit<U,U>` and
`raised_unit<product_unit<U,U>, std::ratio<1,2>>` is defined and equals `U`;
when `product_unit<product_unit<U,U>,U>` is defined as well,
`raised_unit<U, std::ratio<3>>` equals it; hence for a quantity `q` of unit `U`,
`square(q)` exists, `sqrt(square(q))` and `pow<std::ratio<1,2>>(square(q))` have
the unit of `q`, and `pow<std::ratio<2>>(q)` has the unit of `square(q)`. -/
theorem raised_unit_agrees_with_products (U P : Unit) (hP : product_unit U U = some P) :
    (std_ratio 2 1 = some ⟨2, 1⟩ ∧ std_ratio 3 1 = some ⟨3, 1⟩ ∧
      std_ratio 1 2 = some ⟨1, 2⟩) ∧
    raised_unit U ⟨2, 1⟩ = some P ∧
    raised_unit P ⟨1, 2⟩ = some U ∧
    (∀ C, product_unit P U = some C → raised_unit U ⟨3, 1⟩ = some C) ∧
    (∀ (α β : Type) [Mul α] (sqrtMag : α → β) (pow_impl : Fract → α → β) (q : Quantity α),
      q.unit = U →
      (square q : Option (Quantity α)) = some ⟨P, q.magnitude * q.magnitude⟩ ∧
      sqrt sqrtMag (⟨P, q.magnitude * q.magnitude⟩ : Quantity α) =
        some ⟨q.unit, sqrtMag (q.magnitude * q.magnitude)⟩ ∧
      pow pow_impl ⟨1, 2⟩ (⟨P, q.magnitude * q.magnitude⟩ : Quantity α) =
        some ⟨q.unit, pow_impl ⟨1, 2⟩ (q.magnitude * q.magnitude)⟩ ∧
      pow pow_impl ⟨2, 1⟩ q = some ⟨P, pow_impl ⟨2, 1⟩ q.magnitude⟩) := by
  have h2 := raised_unit_two_of_product U P hP
  have hh := raised_unit_half_of_product U P hP
  refine ⟨by decide, h2, hh, fun C hC => raised_unit_three_of_product U P C hP hC, ?_⟩
  intro α β _ sqrtMag pow_impl q hq
  subst hq
  refine ⟨by simp only [square, hP], ?_, ?_, ?_⟩
  · simp only [sqrt, Quantity.magnitude, hh]
  · simp only [pow, Quantity.magnitude, hh]
  · simp only [pow, h2]

/-- C12 (witness): `U = Unit<1,1,-2,0>` with `product_unit<U,U> = Unit<2,2,-4,0>`. -/
theorem raised_unit_agrees_with_products_witness :
    raised_unit [1, 1, -2, 0] ⟨2, 1⟩ = some [2, 2, -4, 0] ∧
      raised_unit [2, 2, -4, 0] ⟨1, 2⟩ = some [1, 1, -2, 0] ∧
      raised_unit [1, 1, -2, 0] ⟨3, 1⟩ = some [3, 3, -6, 0] :=
  have h := raised_unit_agrees_with_products [1, 1, -2, 0] [2, 2, -4, 0] (by decide)
  ⟨h.2.1, h.2.2.1, h.2.2.2.1 [3, 3, -6, 0] (by decide)⟩

/-- C12 (counterexample): for `U = Unit<1073741824>` the unit `product_unit<U,U>`
is rejected (the sum overflows `int`) whereas `raised_unit<U, std::ratio<2>>` is
accepted and is `Unit<-2147483648>`; so the two differ, and
`raised_unit<product_unit<U,U>, std::ratio<1,2>>` is not defined.  Neither is it
for `Unit<>`. -/
theorem raised_unit_two_differs_from_product :
    (Unit.wellFormed [1073741824] ∧ product_unit [1073741824] [1073741824] = none ∧
      raised_unit [1073741824] ⟨2, 1⟩ = some [-2147483648] ∧
      onUnit (fun P => raised_unit P ⟨1, 2⟩) (product_unit [1073741824] [1073741824]) = none) ∧
    onUnit (fun P => raised_unit P ⟨1, 2⟩) (product_unit [] []) = none := by
  decide

/-! ## C13: addition followed by subtraction -/

theorem product_unit_zero_right (U : Unit) (hn : 1 ≤ U.length) (hU : Unit.wellFormed U) :
    product_unit U (List.replicate U.length 0) = some U := by
  rw [product_unit_eq_some_iff]
  refine ⟨hn, by simp, fun i hi => ?_, ?_⟩
  · rw [getD_replicate_zero, Int.add_zero]
    exact wellFormed_getD U hU i hi
  · conv_lhs => rw [← map_getD_range U]
    apply List.map_congr_left
    intro i _
    rw [getD_replicate_zero, Int.add_zero]

theorem quotient_unit_zero_right (U : Unit) (hn : 1 ≤ U.length) (hU : Unit.wellFormed U) :
    quotient_unit U (List.replicate U.length 0) = some U := by
  have hne : ¬ (Unit.exponent_count U = 0) := by
    change ¬ (U.length = 0)
    omega
  rw [quotient_unit, if_neg hne]
  change helper.op.UnitOperator U _ helper.op.difference U.length [] = some U
  rw [UnitOperator_binary_accept U _ helper.op.difference (fun a b => a - b) U.length
    (le_refl _) (by simp) (difference_eq U _)
    (fun i hi => by
      show inInt (U.getD i 0 - (List.replicate U.length (0 : Int)).getD i 0)
      rw [getD_replicate_zero, Int.sub_zero]
      exact wellFormed_getD U hU i hi)]
  congr 1
  conv_rhs => rw [← map_getD_range U]
  apply List.map_congr_left
  intro i _
  show U.getD i 0 - (List.replicate U.length (0 : Int)).getD i 0 = U.getD i 0
  rw [getD_replicate_zero, Int.sub_zero]

/-- C14: `u::unitless = BaseUnit<-1,6>` is the unit with seven exponents all
`0`, and for every unit `U` with seven exponents `product_unit<U, u::unitless>`
and `quotient_unit<U, u::unitless>` equal `U`. -/
theorem product_quotient_unitless (U : Unit) (h7 : Unit.exponent_count U = 7)
    (hU : Unit.wellFormed U) :
    u.unitless = BaseUnit (-1) 6 ∧ u.unitless = some [0, 0, 0, 0, 0, 0, 0] ∧
    onUnits product_unit (some U) u.unitless = some U ∧
    onUnits quotient_unit (some U) u.unitless = some U := by
  have hl : U.length = 7 := h7
  have hz : u.unitless = some (List.replicate U.length 0) := by rw [hl]; decide
  refine ⟨rfl, by decide, ?_, ?_⟩
  · rw [hz]
    exact product_unit_zero_right U (by omega) hU
  · rw [hz]
    exact quotient_unit_zero_right U (by omega) hU

/-- C14 (witness): the force unit `(1,1,-2,0,0,0,0)`. -/
theorem product_quotient_unitless_witness :
    onUnits product_unit (some [1, 1, -2, 0, 0, 0, 0]) u.unitless =
        some [1, 1, -2, 0, 0, 0, 0] ∧
      onUnits quotient_unit (some [1, 1, -2, 0, 0, 0, 0]) u.unitless =
        some [1, 1, -2, 0, 0, 0, 0] :=
  have h := product_quotient_unitless [1, 1, -2, 0, 0, 0, 0] (by decide) (by decide)
  ⟨h.2.2.1, h.2.2.2⟩

/-- C15 (amended): `BaseUnit<d, last>` with `last ≥ -1` and a basis index that
does not fit (`d < 0` or `d > last`) is not rejected: it denotes the unit with
`last + 1` exponents all equal to `0`; `u::unitless` is defined this way, as
`BaseUnit<-1,6>`. -/
theorem BaseUnit_index_outside (d last : Int) (hl : -1 ≤ last) (hd : d < 0 ∨ last < d) :
    BaseUnit d last = some (List.replicate (last + 1).toNat 0) ∧
    u.unitless = BaseUnit (-1) 6 := by
  refine ⟨?_, rfl⟩
  have hnl : ¬ (last < -1) := by omega
  rw [BaseUnit, if_neg hnl, BaseUnitGen_eq, List.append_nil]
  congr 1
  rw [List.eq_replicate_iff]
  refine ⟨by simp, ?_⟩
  intro b hb
  obtain ⟨i, hi, rfl⟩ := List.mem_map.mp hb
  have hi' : i < (last + 1).toNat := List.mem_range.mp hi
  have hne : ¬ ((i : Int) = d) := by omega
  simp [hne]

/-- C15 (witness): the index `9` for a declared last dimension `6`. -/
theorem BaseUnit_index_outside_witness :
    BaseUnit 9 6 = some (List.replicate (6 + 1 : Int).toNat 0) :=
  (BaseUnit_index_outside 9 6 (by decide) (Or.inr (by decide))).1

/-- C15 (counterexample): `BaseUnit<-1,6>` and `BaseUnit<7,6>` have a basis index
outside `0..6`, and both denote the unit with seven exponents `0`. -/
theorem BaseUnit_index_outside_accepted :
    BaseUnit (-1) 6 = some [0, 0, 0, 0, 0, 0, 0] ∧ BaseUnit 7 6 = some [0, 0, 0, 0, 0, 0, 0] := by
  decide


/-! ## C16 and C17: compound assignment -/

theorem sign_natCast_mul_div (m n : Nat) :
    Int.sign (m : Int) * Int.sign (n : Int) * ((m / n : Nat) : Int) = ((m / n : Nat) : Int) := by
  rcases Nat.eq_zero_or_pos m with rfl | hm
  · simp
  · rcases Nat.eq_zero_or_pos n with rfl | hn
    · simp
    · rw [Int.sign_eq_one_of_pos (by exact_mod_cast hm),
        Int.sign_eq_one_of_pos (by exact_mod_cast hn)]
      simp

/-- The truncating division of the built-in integer types is the truncated
quotient of the specification. -/
theorem tdiv_eq_specTruncatedQuotient (a b : Int) :
    Int.tdiv a b = specTruncatedQuotient a b := by
  unfold specTruncatedQuotient
  obtain ⟨m, rfl | rfl⟩ := Int.eq_nat_or_neg a <;> obtain ⟨n, rfl | rfl⟩ := Int.eq_nat_or_neg b
  · rw [Int.natAbs_ofNat, Int.natAbs_ofNat, sign_natCast_mul_div, Int.ofNat_tdiv]
  · rw [Int.tdiv_neg, Int.natAbs_neg, Int.natAbs_ofNat, Int.natAbs_ofNat, Int.sign_neg,
      Int.mul_neg, Int.neg_mul, sign_natCast_mul_div, Int.ofNat_tdiv]
  · rw [Int.neg_tdiv, Int.natAbs_neg, Int.natAbs_ofNat, Int.natAbs_ofNat, Int.sign_neg,
      Int.neg_mul, Int.neg_mul, sign_natCast_mul_div, Int.ofNat_tdiv]
  · rw [Int.neg_tdiv_neg, Int.natAbs_neg, Int.natAbs_neg, Int.natAbs_ofNat, Int.natAbs_ofNat,
      Int.sign_neg, Int.sign_neg, Int.neg_mul_neg, sign_natCast_mul_div, Int.ofNat_tdiv]

theorem ofResult_representable (k : IntegerKind) (x : Int) (h : k.representable x) :
    IntegerMagnitude.ofResult k x = IntegerMagnitude.value x := by
  unfold IntegerMagnitude.ofResult
  rw [if_pos h]

theorem value_add_value (k : IntegerKind) (a b : Int) (h : k.representable (a + b)) :
    (IntegerMagnitude.value a + IntegerMagnitude.value b : IntegerMagnitude k) =
      IntegerMagnitude.value (a + b) :=
  ofResult_representable k (a + b) h

theorem value_sub_value (k : IntegerKind) (a b : Int) (h : k.representable (a - b)) :
    (IntegerMagnitude.value a - IntegerMagnitude.value b : IntegerMagnitude k) =
      IntegerMagnitude.value (a - b) :=
  ofResult_representable k (a - b) h

theorem value_mul_value (k : IntegerKind) (a b : Int) (h : k.representable (a * b)) :
    (IntegerMagnitude.value a * IntegerMagnitude.value b : IntegerMagnitude k) =
      IntegerMagnitude.value (a * b) :=
  ofResult_representable k (a * b) h

theorem value_div_value (k : IntegerKind) (a b : Int) (hb : b ≠ 0)
    (h : k.representable (specTruncatedQuotient a b)) :
    (IntegerMagnitude.value a / IntegerMagnitude.value b : IntegerMagnitude k) =
      IntegerMagnitude.value (specTruncatedQuotient a b) := by
  show (if b = 0 then IntegerMagnitude.undefined
    else IntegerMagnitude.ofResult k (Int.tdiv a b)) = _
  rw [if_neg hb, tdiv_eq_specTruncatedQuotient]
  exact ofResult_representable k _ h

/-- C16 (amended): for quantities `l`, `r`, distinct objects of the same unit `U`
with magnitudes `a` and `b` of type `int` or `unsigned int`: whenever the
respective result is representable in the magnitude type, after `l += r`,
`l -= r`, `l *= r` and, for `b ≠ 0`, `l /= r` the magnitude of `l` is `a + b`,
`a - b`, `a * b` and the quotient of `a` by `b` truncated toward zero, the unit
of `l` is still `U`, `r` is unchanged and the returned reference designates `l`;
`4 /= 5` leaves `0`.  When `r` is the object `l` itself, the one object holds
the result afterwards. -/
theorem compound_assignment_same_unit (k : IntegerKind) (l r : Quantity (IntegerMagnitude k))
    (a b : Int) (h : l.unit = r.unit) (hl : l.magnitude = IntegerMagnitude.value a)
    (hr : r.magnitude = IntegerMagnitude.value b) (ha : k.representable a)
    (hb : k.representable b) :
    (k.representable (a + b) → operator_plus_assign l r =
      some ⟨⟨l.unit, IntegerMagnitude.value (a + b)⟩, r, Operand.left⟩) ∧
    (k.representable (a - b) → operator_minus_assign l r =
      some ⟨⟨l.unit, IntegerMagnitude.value (a - b)⟩, r, Operand.left⟩) ∧
    (k.representable (a * b) → operator_mul_assign l r =
      some ⟨⟨l.unit, IntegerMagnitude.value (a * b)⟩, r, Operand.left⟩) ∧
    (b ≠ 0 → k.representable (specTruncatedQuotient a b) → operator_div_assign l r =
      some ⟨⟨l.unit, IntegerMagnitude.value (specTruncatedQuotient a b)⟩, r,
        Operand.left⟩) ∧
    operator_div_assign (⟨l.unit, IntegerMagnitude.value 4⟩ : Quantity (IntegerMagnitude k))
        (⟨l.unit, IntegerMagnitude.value 5⟩ : Quantity (IntegerMagnitude k)) =
      some ⟨⟨l.unit, IntegerMagnitude.value 0⟩, ⟨l.unit, IntegerMagnitude.value 5⟩,
        Operand.left⟩ ∧
    (k.representable (a + a) → assign_same_object operator_plus_assign l =
      some ⟨⟨l.unit, IntegerMagnitude.value (a + a)⟩,
        ⟨l.unit, IntegerMagnitude.value (a + a)⟩, Operand.left⟩) := by
  have hl' : l.m_magnitude = IntegerMagnitude.value a := hl
  have hr' : r.m_magnitude = IntegerMagnitude.value b := hr
  refine ⟨?_, ?_, ?_, ?_, ?_, ?_⟩
  · intro hs
    simp only [operator_plus_assign, h, if_true, hl', hr', value_add_value k a b hs]
  · intro hs
    simp only [operator_minus_assign, h, if_true, hl', hr', value_sub_value k a b hs]
  · intro hs
    simp only [operator_mul_assign, h, if_true, hl', hr', value_mul_value k a b hs]
  · intro hb0 hs
    simp only [operator_div_assign, h, if_true, hl', hr', value_div_value k a b hb0 hs]
  · have h45 : (IntegerMagnitude.value 4 / IntegerMagnitude.value 5 : IntegerMagnitude k) =
        IntegerMagnitude.value 0 := by
      cases k <;> rfl
    simp only [operator_div_assign, if_true, h45]
  · intro hs
    simp only [assign_same_object, operator_plus_assign, if_true, hl',
      value_add_value k a a hs]

/-- C16 (witness): `4 N` and `5 N` with magnitudes of type `int`. -/
theorem compound_assignment_same_unit_witness :
    operator_plus_assign
        (⟨[1, 1, -2, 0], IntegerMagnitude.value 4⟩ : Quantity (IntegerMagnitude IntegerKind.int))
        (⟨[1, 1, -2, 0], IntegerMagnitude.value 5⟩ : Quantity (IntegerMagnitude IntegerKind.int)) =
      some ⟨⟨[1, 1, -2, 0], IntegerMagnitude.value (4 + 5)⟩,
        ⟨[1, 1, -2, 0], IntegerMagnitude.value 5⟩, Operand.left⟩ :=
  (compound_assignment_same_unit IntegerKind.int
    (⟨[1, 1, -2, 0], IntegerMagnitude.value 4⟩ : Quantity (IntegerMagnitude IntegerKind.int))
    ⟨[1, 1, -2, 0], IntegerMagnitude.value 5⟩ 4 5 rfl rfl rfl (by decide) (by decide)).1
    (by decide)

/-- C16 (counterexample): with magnitudes of type `int`, `2147483647 += 1` and
`-2147483648 /= -1` (a nonzero divisor) have undefined behaviour, so the
magnitude of `l` is not `a + b`, respectively the quotient; with magnitudes of
type `unsigned int`, `0 -= 1` leaves `4294967295`, which is not `0 - 1`; and
after `x += x` on a quantity holding `7`, the right operand, being the same
object, holds `14`. -/
theorem compound_assignment_not_representable :
    (IntegerKind.int.representable 2147483647 ∧ IntegerKind.int.representable 1 ∧
      operator_plus_assign
          (⟨[1, 1, -2, 0], IntegerMagnitude.value 2147483647⟩ :
            Quantity (IntegerMagnitude IntegerKind.int))
          (⟨[1, 1, -2, 0], IntegerMagnitude.value 1⟩ :
            Quantity (IntegerMagnitude IntegerKind.int)) =
        some ⟨⟨[1, 1, -2, 0], IntegerMagnitude.undefined⟩,
          ⟨[1, 1, -2, 0], IntegerMagnitude.value 1⟩, Operand.left⟩) ∧
    (IntegerKind.int.representable (-2147483648) ∧ IntegerKind.int.representable (-1) ∧
      (-1 : Int) ≠ 0 ∧
      operator_div_assign
          (⟨[1, 1, -2, 0], IntegerMagnitude.value (-2147483648)⟩ :
            Quantity (IntegerMagnitude IntegerKind.int))
          (⟨[1, 1, -2, 0], IntegerMagnitude.value (-1)⟩ :
            Quantity (IntegerMagnitude IntegerKind.int)) =
        some ⟨⟨[1, 1, -2, 0], IntegerMagnitude.undefined⟩,
          ⟨[1, 1, -2, 0], IntegerMagnitude.value (-1)⟩, Operand.left⟩) ∧
    (IntegerKind.unsigned.representable 0 ∧ IntegerKind.unsigned.representable 1 ∧
      operator_minus_assign
          (⟨[1, 1, -2, 0], IntegerMagnitude.value 0⟩ :
            Quantity (IntegerMagnitude IntegerKind.unsigned))
          (⟨[1, 1, -2, 0], IntegerMagnitude.value 1⟩ :
            Quantity (IntegerMagnitude IntegerKind.unsigned)) =
        some ⟨⟨[1, 1, -2, 0], IntegerMagnitude.value 4294967295⟩,
          ⟨[1, 1, -2, 0], IntegerMagnitude.value 1⟩, Operand.left⟩ ∧
      (4294967295 : Int) ≠ 0 - 1) ∧
    (assign_same_object operator_plus_assign
        (⟨[1, 1, -2, 0], IntegerMagnitude.value 7⟩ :
          Quantity (IntegerMagnitude IntegerKind.int)) =
      some ⟨⟨[1, 1, -2, 0], IntegerMagnitude.value 14⟩,
        ⟨[1, 1, -2, 0], IntegerMagnitude.value 14⟩, Operand.left⟩ ∧
      (IntegerMagnitude.value 14 : IntegerMagnitude IntegerKind.int) ≠
        IntegerMagnitude.value 7) := by
  refine ⟨⟨by decide, by decide, rfl⟩, ⟨by decide, by decide, by decide, rfl⟩,
    ⟨by decide, by decide, rfl, by decide⟩, ⟨rfl, by decide⟩⟩

/-- C17 (amended): for a quantity `l` of unit `U1` and a quantity `r` of a
different unit `U2`, `l *= r` and `l /= r` are rejected, because both operands
have to share the template parameter `U`; for operands of the same unit they
are accepted and leave `l` with that unit while setting its magnitude to the
product, respectively quotient, of the two magnitudes. -/
theorem mul_div_assign_units {α β : Type} [HMul α β α] [HDiv α β α]
    (l : Quantity α) (r : Quantity β) :
    (l.unit ≠ r.unit → operator_mul_assign l r = none ∧ operator_div_assign l r = none) ∧
    (l.unit = r.unit →
      operator_mul_assign l r =
        some ⟨⟨l.unit, l.magnitude * r.magnitude⟩, r, Operand.left⟩ ∧
      operator_div_assign l r =
        some ⟨⟨l.unit, l.magnitude / r.magnitude⟩, r, Operand.left⟩) := by
  constructor
  · intro h
    simp only [operator_mul_assign, operator_div_assign, if_neg h, and_self]
  · intro h
    simp only [operator_mul_assign, operator_div_assign, if_pos h, Quantity.magnitude,
      and_self]

/-- C17 (witness): a quantity of unit `Unit<1,0>` and one of unit `Unit<0,1>`. -/
theorem mul_div_assign_units_witness :
    operator_mul_assign (⟨[1, 0], IntegerMagnitude.value 4⟩ : Quantity (IntegerMagnitude IntegerKind.int))
        (⟨[0, 1], IntegerMagnitude.value 5⟩ : Quantity (IntegerMagnitude IntegerKind.int)) = none ∧
      operator_div_assign (⟨[1, 0], IntegerMagnitude.value 4⟩ : Quantity (IntegerMagnitude IntegerKind.int))
        (⟨[0, 1], IntegerMagnitude.value 5⟩ : Quantity (IntegerMagnitude IntegerKind.int)) = none :=
  (mul_div_assign_units (⟨[1, 0], IntegerMagnitude.value 4⟩ : Quantity (IntegerMagnitude IntegerKind.int))
    (⟨[0, 1], IntegerMagnitude.value 5⟩ : Quantity (IntegerMagnitude IntegerKind.int))).1 (by decide)

/-- C17 (counterexample): `l` of unit `u::meter` and `r` of the different unit
`u::second`: neither `l *= r` nor `l /= r` is accepted. -/
theorem mul_div_assign_different_units_rejected :
    ([1, 0, 0, 0, 0, 0, 0] : Unit) ≠ [0, 0, 1, 0, 0, 0, 0] ∧
      operator_mul_assign (⟨[1, 0, 0, 0, 0, 0, 0], IntegerMagnitude.value 4⟩ :
          Quantity (IntegerMagnitude IntegerKind.int))
        (⟨[0, 0, 1, 0, 0, 0, 0], IntegerMagnitude.value 5⟩ :
          Quantity (IntegerMagnitude IntegerKind.int)) = none ∧
      operator_div_assign (⟨[1, 0, 0, 0, 0, 0, 0], IntegerMagnitude.value 4⟩ :
          Quantity (IntegerMagnitude IntegerKind.int))
        (⟨[0, 0, 1, 0, 0, 0, 0], IntegerMagnitude.value 5⟩ :
          Quantity (IntegerMagnitude IntegerKind.int)) = none := by
  refine ⟨by decide, ?_, ?_⟩
  · simp only [operator_mul_assign]
    rfl
  · simp only [operator_div_assign]
    rfl

/-! ## C18: the catalogue of derived units -/

/-- C18 (the code at the failing input): `u::joule` is declared as
`quotient_unit<newton, meter>` and is `(0,1,-2,0,0,0,0)`, whereas
`product_unit<newton, meter>` is `(2,1,-2,0,0,0,0)`; the units derived from
`u::joule` inherit the missing `m^2`: watt, volt, ohm, weber, tesla and gray.
The units hertz, newton, pascal, coulomb and katal have their SI exponents. -/
theorem derived_units_as_declared :
    (u.joule = onUnits quotient_unit u.newton u.meter ∧
      u.joule = some [0, 1, -2, 0, 0, 0, 0] ∧
      onUnits product_unit u.newton u.meter = some [2, 1, -2, 0, 0, 0, 0]) ∧
    (u.watt = some [0, 1, -3, 0, 0, 0, 0] ∧ u.volt = some [0, 1, -3, -1, 0, 0, 0] ∧
      u.ohm = some [0, 1, -3, -2, 0, 0, 0] ∧ u.weber = some [0, 1, -2, -1, 0, 0, 0] ∧
      u.tesla = some [-2, 1, -2, -1, 0, 0, 0] ∧ u.gray = some [0, 0, -2, 0, 0, 0, 0]) ∧
    (u.hertz = some [0, 0, -1, 0, 0, 0, 0] ∧ u.newton = some [1, 1, -2, 0, 0, 0, 0] ∧
      u.pascal = some [-1, 1, -2, 0, 0, 0, 0] ∧ u.coulomb = some [0, 0, 1, 1, 0, 0, 0] ∧
      u.katal = some [0, 0, -1, 0, 0, 1, 0]) := by
  decide


/-! ## C19 and C20: printing a unit without a specialised symbol -/

theorem join_append_singleton (l : List String) (x : String) :
    String.join (l ++ [x]) = String.join l ++ x := by
  simp [String.join, List.foldl_append]

theorem unitSymbol_basis_seven (pos : Nat) (hp : pos < 7) :
    unitSymbol (helper.baseunit.BaseUnitGen 7 (pos : Int) []) =
      some (specBaseSymbols.getD pos "") := by
  interval_cases pos <;> decide

theorem print_unit_symbol_and_exponent_seven (U : Unit) (h7 : U.length = 7) (pos : Nat)
    (hp : pos < 7) (s : String) :
    helper.print.print_unit_symbol_and_exponent U (pos : Int) s =
      some (s ++ specDimensionText (specBaseSymbols.getD pos "") (U.getD pos 0)) := by
  unfold helper.print.print_unit_symbol_and_exponent
  rw [helper.exponent, exponent_value_lt U pos (by omega)]
  have hc : Unit.exponent_count U = 7 := h7
  simp only [hc, unitSymbol_basis_seven pos hp]
  unfold specDimensionText
  by_cases h0 : U.getD pos 0 = 0
  · rw [if_pos h0, if_pos h0, String.append_empty]
  · rw [if_neg h0, if_neg h0]
    by_cases h1 : U.getD pos 0 = 1
    · rw [if_neg (not_not.mpr h1), if_pos h1]
    · rw [if_pos h1, if_neg h1]
      simp only [String.append_assoc]

theorem DimensionsPrinter_seven (U : Unit) (h7 : U.length = 7) (s : String) (k : Nat)
    (hk : k < 7) :
    helper.print.DimensionsPrinter U k s =
      some (s ++ String.join ((List.range (k + 1)).map
        (fun i => specDimensionText (specBaseSymbols.getD i "") (U.getD i 0)))) := by
  induction k with
  | zero =>
    unfold helper.print.DimensionsPrinter
    have h := print_unit_symbol_and_exponent_seven U h7 0 (by omega) s
    simp only [Nat.cast_zero] at h
    rw [h]
    have hj : String.join ((List.range (0 + 1)).map
        (fun i => specDimensionText (specBaseSymbols.getD i "") (U.getD i 0))) =
        specDimensionText (specBaseSymbols.getD 0 "") (U.getD 0 0) := by
      show "" ++ specDimensionText (specBaseSymbols.getD 0 "") (U.getD 0 0) = _
      exact String.empty_append _
    rw [hj]
  | succ k ih =>
    unfold helper.print.DimensionsPrinter
    rw [ih (by omega)]
    simp only
    rw [print_unit_symbol_and_exponent_seven U h7 (k + 1) hk, String.append_assoc,
      List.range_succ (n := k + 1), List.map_append, List.map_singleton, join_append_singleton]

theorem range_map_eq_specPrintUnit (U : Unit) (h7 : U.length = 7) :
    String.join ((List.range 7).map
      (fun i => specDimensionText (specBaseSymbols.getD i "") (U.getD i 0))) =
      specPrintUnit U := by
  match U, h7 with
  | [_, _, _, _, _, _, _], _ => rfl

theorem print_unit_primary_seven (U : Unit) (h7 : U.length = 7) (s : String) :
    print_unit_primary U s = some (s ++ specPrintUnit U) := by
  have hc : Unit.exponent_count U = 7 := h7
  have hne : ¬ (Unit.exponent_count U = 0) := by omega
  rw [print_unit_primary, if_neg hne, hc]
  rw [DimensionsPrinter_seven U h7 s 6 (by omega), range_map_eq_specPrintUnit U h7]

/-- C19: for every unit `U` with seven exponents for which no explicit
specialisation of `print_unit` is declared, `print_unit<U>` writes exactly the
concatenation over the dimensions `0..6` in increasing order of: nothing for
the exponent `0`, the base symbol for the exponent `1`, and otherwise the base
symbol followed by `^` and the signed decimal exponent; the dimensionless unit
prints as the empty text. -/
theorem print_unit_concatenation (U : Unit) (s : String)
    (h7 : Unit.exponent_count U = 7)
    (hns : ∀ p ∈ print_unit_specialised, p.1 ≠ some U) :
    print_unit U s = some (s ++ specPrintUnit U) ∧
    print_unit [0, 0, 0, 0, 0, 0, 0] "" = some "" := by
  refine ⟨?_, by decide⟩
  have hfind : print_unit_specialised.find? (fun p => decide (p.1 = some U)) = none := by
    rw [List.find?_eq_none]
    intro p hp
    simpa using hns p hp
  rw [print_unit, hfind]
  exact print_unit_primary_seven U h7 s

/-- C19 (witness): the unit `(3,-1,12,0,0,-100,2)` written after the text `7`. -/
theorem print_unit_concatenation_witness :
    print_unit [3, -1, 12, 0, 0, -100, 2] "7" = some "7m^3kg^-1s^12mol^-100cd^2" :=
  (print_unit_concatenation [3, -1, 12, 0, 0, -100, 2] "7" (by decide) (by decide)).1

/-- C20 (amended): `u::meter_per_second_squared` is the unit with length exponent
`1`, time exponent `-2` and all other exponents `0`; no explicit specialisation
of `print_unit` is declared for it, and `print_unit` writes exactly `ms^-2` for
it: the exponent `1` is printed without `^1`. -/
theorem print_unit_meter_per_second_squared :
    u.meter_per_second_squared = some [1, 0, -2, 0, 0, 0, 0] ∧
    (∀ p ∈ print_unit_specialised, p.1 ≠ u.meter_per_second_squared) ∧
    ∀ s : String, print_unit [1, 0, -2, 0, 0, 0, 0] s = some (s ++ "ms^-2") := by
  refine ⟨by decide, by decide, ?_⟩
  intro s
  have hfind : print_unit_specialised.find?
      (fun p => decide (p.1 = some [1, 0, -2, 0, 0, 0, 0])) = none := by decide
  rw [print_unit, hfind]
  exact print_unit_primary_seven [1, 0, -2, 0, 0, 0, 0] rfl s

/-- C20 (counterexample): on an empty stream `print_unit` writes `ms^-2` for
`u::meter_per_second_squared`, which is not the text `m^1s^-2`. -/
theorem print_unit_meter_per_second_squared_not_caret_one :
    u.meter_per_second_squared = some [1, 0, -2, 0, 0, 0, 0] ∧
      print_unit [1, 0, -2, 0, 0, 0, 0] "" = some "ms^-2" ∧
      print_unit [1, 0, -2, 0, 0, 0, 0] "" ≠ some "m^1s^-2" := by
  decide


/-! ## Auxiliary facts on streams and on the decimal text of integers -/

theorem skipws_of_head_not_space (c : Char) (cs : List Char) (h : isspace c = false) :
    skipws (c :: cs) = c :: cs := by
  simp [skipws, h]

theorem read_unit_loop_exact (cs rest : List Char) (h : ∀ c ∈ cs, isspace c = false) :
    read_unit_loop cs ⟨cs ++ rest, false⟩ = ⟨rest, false⟩ := by
  induction cs with
  | nil => rfl
  | cons c cs ih =>
    have hc : isspace c = false := h c (List.mem_cons_self _ _)
    have hx : extract_char ⟨c :: cs ++ rest, false⟩ = (⟨cs ++ rest, false⟩, some c) := by
      simp [extract_char, skipws, hc]
    unfold read_unit_loop
    rw [hx]
    simp only [Bool.false_eq_true, ne_eq, not_true_eq_false, or_self, if_false]
    exact ih (fun c hc => h c (List.mem_cons_of_mem _ hc))

theorem digitChar_isDigit (d : Nat) (hd : d < 10) :
    (Nat.digitChar d).isDigit = true ∧ (Nat.digitChar d).toNat - 48 = d := by
  interval_cases d <;> exact ⟨rfl, rfl⟩

theorem isspace_of_isDigit (c : Char) (h : c.isDigit = true) : isspace c = false := by
  have h1 : 48 ≤ c.toNat ∧ c.toNat ≤ 57 := by
    simp only [Char.isDigit, Bool.and_eq_true, decide_eq_true_eq] at h
    exact ⟨h.1, h.2⟩
  simp only [isspace, decide_eq_false_iff_not]
  omega

/-- The digits that `Nat.toDigitsCore` puts in front of its accumulator: they
are decimal digits, there is at least one, and read from the left they give
back the number. -/
theorem toDigitsCore_spec (fuel : Nat) :
    ∀ n, n < fuel → ∃ l : List Char, (∀ ds, Nat.toDigitsCore 10 fuel n ds = l ++ ds) ∧
      l ≠ [] ∧ (∀ c ∈ l, c.isDigit = true) ∧
      (∀ a : Int, l.foldl (fun a c => 10 * a + ((c.toNat - 48 : Nat) : Int)) a =
        a * 10 ^ l.length + (n : Int)) := by
  induction fuel with
  | zero => intro n hn; omega
  | succ fuel ih =>
    intro n hn
    have hd := digitChar_isDigit (n % 10) (Nat.mod_lt _ (by decide))
    by_cases h0 : n / 10 = 0
    · refine ⟨[Nat.digitChar (n % 10)], ?_, by simp, ?_, ?_⟩
      · intro ds
        simp [Nat.toDigitsCore, h0]
      · intro c hc
        rw [List.mem_singleton] at hc
        rw [hc]; exact hd.1
      · intro a
        simp only [List.foldl_cons, List.foldl_nil, List.length_singleton, pow_one, hd.2]
        have : n % 10 = n := Nat.mod_eq_of_lt (by omega)
        rw [this]
        ring
    · have hlt : n / 10 < fuel := by omega
      obtain ⟨l, hl, _, hdig, hval⟩ := ih (n / 10) hlt
      refine ⟨l ++ [Nat.digitChar (n % 10)], ?_, by simp, ?_, ?_⟩
      · intro ds
        simp [Nat.toDigitsCore, h0, hl]
      · intro c hc
        rcases List.mem_append.mp hc with hc | hc
        · exact hdig c hc
        · rw [List.mem_singleton] at hc
          rw [hc]; exact hd.1
      · intro a
        rw [List.foldl_append, hval]
        simp only [List.foldl_cons, List.foldl_nil, List.length_append, List.length_singleton,
          hd.2, pow_succ]
        have hn10 : (n : Int) = 10 * ((n / 10 : Nat) : Int) + ((n % 10 : Nat) : Int) := by
          have := Nat.div_add_mod n 10
          omega
        rw [hn10]
        push_cast
        ring

theorem repr_spec (n : Nat) :
    ∃ l : List Char, (Nat.repr n).data = l ∧ l ≠ [] ∧ (∀ c ∈ l, c.isDigit = true) ∧
      l.foldl (fun a c => 10 * a + ((c.toNat - 48 : Nat) : Int)) 0 = (n : Int) := by
  obtain ⟨l, hl, hne, hdig, hval⟩ := toDigitsCore_spec (n + 1) n (Nat.lt_succ_self n)
  refine ⟨l, ?_, hne, hdig, ?_⟩
  · show (Nat.toDigits 10 n).asString.data = l
    rw [Nat.toDigits, hl []]
    simp [List.asString]
  · rw [hval 0]
    simp


theorem takeWhile_isDigit_rest (rest : List Char)
    (hrest : ∀ c, rest.head? = some c → c.isDigit = false) :
    rest.takeWhile Char.isDigit = [] ∧ rest.dropWhile Char.isDigit = rest := by
  cases rest with
  | nil => exact ⟨rfl, rfl⟩
  | cons c r =>
    have hc : c.isDigit = false := hrest c rfl
    simp [List.takeWhile, List.dropWhile, hc]

theorem digits_then_rest (l rest : List Char) (hdig : ∀ c ∈ l, c.isDigit = true)
    (hrest : ∀ c, rest.head? = some c → c.isDigit = false) :
    (l ++ rest).takeWhile Char.isDigit = l ∧ (l ++ rest).dropWhile Char.isDigit = rest := by
  rw [List.takeWhile_append_of_pos hdig, List.dropWhile_append_of_pos hdig,
    (takeWhile_isDigit_rest rest hrest).1, (takeWhile_isDigit_rest rest hrest).2,
    List.append_nil]
  exact ⟨rfl, rfl⟩

/-- Extraction of an `int` from the text that `operator<<` writes for it,
followed by text that does not start with a digit: the value is read back and
exactly its text is consumed. -/
theorem extract_int_renderInt (m : Int) (hm : inInt m) (rest : List Char)
    (hrest : ∀ c, rest.head? = some c → c.isDigit = false) :
    extract_int ⟨(renderInt m).data ++ rest, false⟩ = (⟨rest, false⟩, m) := by
  obtain ⟨l, hl, hne, hdig, hval⟩ := repr_spec m.natAbs
  obtain ⟨htake, hdrop⟩ := digits_then_rest l rest hdig hrest
  by_cases hneg : m < 0
  · have hdata : (renderInt m).data = '-' :: l := by
      rw [renderInt, if_pos hneg, String.data_append, hl]
      rfl
    have hm' : -((m.natAbs : Nat) : Int) = m := by omega
    rw [hdata]
    unfold extract_int
    have hsk : skipws ('-' :: l ++ rest) = '-' :: (l ++ rest) :=
      skipws_of_head_not_space _ _ (by decide)
    simp only [Bool.false_eq_true, if_false, hsk, List.head?_cons, true_or, if_true,
      List.tail_cons, htake, hdrop, hval, hne, decide_True, hm', if_pos hm]
  · have hdata : (renderInt m).data = l := by
      rw [renderInt, if_neg hneg, hl]
    have hm' : ((m.natAbs : Nat) : Int) = m := by omega
    rw [hdata]
    obtain ⟨c, l', rfl⟩ := List.exists_cons_of_ne_nil hne
    have hcd : c.isDigit = true := hdig c (List.mem_cons_self _ _)
    have hsk : skipws (c :: l' ++ rest) = c :: (l' ++ rest) :=
      skipws_of_head_not_space _ _ (isspace_of_isDigit c hcd)
    have hminus : ¬ (c = '-') := by rintro rfl; exact absurd hcd (by decide)
    have hplus : ¬ (c = '+') := by rintro rfl; exact absurd hcd (by decide)
    unfold extract_int
    have htake' : (c :: (l' ++ rest)).takeWhile Char.isDigit = c :: l' := htake
    have hdrop' : (c :: (l' ++ rest)).dropWhile Char.isDigit = rest := hdrop
    simp only [Bool.false_eq_true, if_false, hsk, List.head?_cons, Option.some.injEq, hminus,
      hplus, or_self, htake', hdrop', hval, decide_False, hm', if_pos hm]
    simp


/-! ## Auxiliary facts on the text of a unit -/

theorem noSpace_append (a b : String) (ha : noSpace a) (hb : noSpace b) : noSpace (a ++ b) := by
  intro c hc
  rw [String.data_append] at hc
  rcases List.mem_append.mp hc with h | h
  · exact ha c h
  · exact hb c h

theorem startsWithDigit_append (a b : String) (ha : startsWithDigit a.data = false)
    (hb : a.data = [] → startsWithDigit b.data = false) :
    startsWithDigit (a ++ b).data = false := by
  rw [String.data_append]
  cases hd : a.data with
  | nil => simpa using hb hd
  | cons c cs =>
    rw [hd] at ha
    simpa [startsWithDigit] using ha

theorem noSpace_renderInt (e : Int) : noSpace (renderInt e) := by
  obtain ⟨l, hl, _, hdig, _⟩ := repr_spec e.natAbs
  have hrepr : noSpace (Nat.repr e.natAbs) := by
    intro c hc
    rw [hl] at hc
    exact isspace_of_isDigit c (hdig c hc)
  unfold renderInt
  split_ifs
  · exact noSpace_append _ _ (by decide) hrepr
  · exact hrepr

theorem specDimensionText_shape (symbol : String) (e : Int) (hs : noSpace symbol)
    (hd : startsWithDigit symbol.data = false) (hne : symbol.data ≠ []) :
    noSpace (specDimensionText symbol e) ∧
      startsWithDigit (specDimensionText symbol e).data = false := by
  unfold specDimensionText
  split_ifs
  · exact ⟨by decide, rfl⟩
  · exact ⟨hs, hd⟩
  · constructor
    · exact noSpace_append _ _ (noSpace_append _ _ hs (by decide)) (noSpace_renderInt e)
    · rw [String.append_assoc]
      exact startsWithDigit_append _ _ hd (fun h => absurd h hne)

theorem specPrintUnit_shape (U : Unit) (h7 : U.length = 7) :
    noSpace (specPrintUnit U) ∧ startsWithDigit (specPrintUnit U).data = false := by
  match U, h7 with
  | [a0, a1, a2, a3, a4, a5, a6], _ =>
    have h0 := specDimensionText_shape "m" a0 (by decide) rfl (by decide)
    have h1 := specDimensionText_shape "kg" a1 (by decide) rfl (by decide)
    have h2 := specDimensionText_shape "s" a2 (by decide) rfl (by decide)
    have h3 := specDimensionText_shape "A" a3 (by decide) rfl (by decide)
    have h4 := specDimensionText_shape "K" a4 (by decide) rfl (by decide)
    have h5 := specDimensionText_shape "mol" a5 (by decide) rfl (by decide)
    have h6 := specDimensionText_shape "cd" a6 (by decide) rfl (by decide)
    have hjoin : specPrintUnit [a0, a1, a2, a3, a4, a5, a6] =
        "" ++ specDimensionText "m" a0 ++ specDimensionText "kg" a1 ++
          specDimensionText "s" a2 ++ specDimensionText "A" a3 ++ specDimensionText "K" a4 ++
          specDimensionText "mol" a5 ++ specDimensionText "cd" a6 := rfl
    rw [hjoin, String.empty_append]
    constructor
    · exact noSpace_append _ _ (noSpace_append _ _ (noSpace_append _ _ (noSpace_append _ _
        (noSpace_append _ _ (noSpace_append _ _ h0.1 h1.1) h2.1) h3.1) h4.1) h5.1) h6.1
    · exact startsWithDigit_append _ _ (startsWithDigit_append _ _ (startsWithDigit_append _ _
        (startsWithDigit_append _ _ (startsWithDigit_append _ _ (startsWithDigit_append _ _
        h0.2 (fun _ => h1.2)) (fun _ => h2.2)) (fun _ => h3.2)) (fun _ => h4.2))
        (fun _ => h5.2)) (fun _ => h6.2)

theorem print_unit_specialised_shape :
    ∀ p ∈ print_unit_specialised, noSpace p.2 ∧ startsWithDigit p.2.data = false := by
  decide

theorem unitSymbol_some_length (V : Unit) (sym : String) (h : unitSymbol V = some sym) :
    V.length = 7 := by
  unfold unitSymbol at h
  have hm : u.meter = some [1, 0, 0, 0, 0, 0, 0] := by decide
  have hk : u.kilogram = some [0, 1, 0, 0, 0, 0, 0] := by decide
  have hs : u.second = some [0, 0, 1, 0, 0, 0, 0] := by decide
  have ha : u.ampere = some [0, 0, 0, 1, 0, 0, 0] := by decide
  have hK : u.kelvin = some [0, 0, 0, 0, 1, 0, 0] := by decide
  have hmo : u.mole = some [0, 0, 0, 0, 0, 1, 0] := by decide
  have hc : u.candela = some [0, 0, 0, 0, 0, 0, 1] := by decide
  rw [hm, hk, hs, ha, hK, hmo, hc] at h
  split_ifs at h with h1 h2 h3 h4 h5 h6 h7
  all_goals first
    | (cases h1; rfl) | (cases h2; rfl) | (cases h3; rfl) | (cases h4; rfl)
    | (cases h5; rfl) | (cases h6; rfl) | (cases h7; rfl)

theorem DimensionsPrinter_some_first (U : Unit) (k : Nat) :
    ∀ s t, helper.print.DimensionsPrinter U k s = some t →
      ∃ t0, helper.print.print_unit_symbol_and_exponent U 0 s = some t0 := by
  induction k with
  | zero =>
    intro s t h
    exact ⟨t, h⟩
  | succ k ih =>
    intro s t h
    unfold helper.print.DimensionsPrinter at h
    cases hk : helper.print.DimensionsPrinter U k s with
    | none => rw [hk] at h; cases h
    | some s1 => exact ih s s1 hk

theorem print_unit_primary_some_length (U : Unit) (s t : String)
    (h : print_unit_primary U s = some t) : U.length = 7 := by
  unfold print_unit_primary at h
  split_ifs at h with h0
  obtain ⟨t0, ht0⟩ := DimensionsPrinter_some_first U _ s t h
  unfold helper.print.print_unit_symbol_and_exponent at ht0
  cases he : helper.exponent U 0 with
  | none => rw [he] at ht0; cases ht0
  | some e =>
    rw [he] at ht0
    simp only at ht0
    cases hsym : unitSymbol (helper.baseunit.BaseUnitGen (Unit.exponent_count U) 0 []) with
    | none => rw [hsym] at ht0; cases ht0
    | some sym =>
      have hlen := unitSymbol_some_length _ sym hsym
      rw [BaseUnitGen_eq, List.append_nil, List.length_map, List.length_range] at hlen
      exact hlen

/-- Whenever `print_unit<U>` builds, what it writes is the text written to an
empty stream appended to the text written before, and that text holds no
whitespace and does not start with a digit. -/
theorem print_unit_some_shape (U : Unit) (s t : String) (h : print_unit U s = some t) :
    ∃ expected, print_unit U "" = some expected ∧ t = s ++ expected ∧ noSpace expected ∧
      startsWithDigit expected.data = false := by
  unfold print_unit at h ⊢
  cases hfind : print_unit_specialised.find? (fun p => decide (p.1 = some U)) with
  | some p =>
    rw [hfind] at h
    cases h
    have hp := print_unit_specialised_shape p (List.mem_of_find?_eq_some hfind)
    exact ⟨p.2, by simp, rfl, hp.1, hp.2⟩
  | none =>
    rw [hfind] at h
    simp only at h ⊢
    have h7 := print_unit_primary_some_length U s t h
    rw [print_unit_primary_seven U h7 s] at h
    cases h
    have hsh := specPrintUnit_shape U h7
    exact ⟨specPrintUnit U, by rw [print_unit_primary_seven U h7 "", String.empty_append],
      rfl, hsh.1, hsh.2⟩

theorem print_unit_seven_some (U : Unit) (h7 : U.length = 7) (s : String) :
    ∃ t, print_unit U s = some t := by
  unfold print_unit
  cases print_unit_specialised.find? (fun p => decide (p.1 = some U)) with
  | some p => exact ⟨_, rfl⟩
  | none => exact ⟨_, print_unit_primary_seven U h7 s⟩


/-! ## C21 to C23: reading a quantity -/

/-- C21 (the code at the failing inputs): `print_unit` writes `m` for `u::meter`
and `mol` for `u::mole`, yet reading the text `5mol` into a quantity of unit
`u::meter` that holds `1` does not fail and stores `5`, leaving `ol` in the
stream; likewise `5Hz`, with the registered symbol of `u::hertz`, is read into a
quantity of unit `u::henry` (symbol `H`), and `5N` into a dimensionless
quantity.  Only a mismatch inside the expected text fails: `-45Hz` read into a
quantity of unit `u::newton` fails and leaves its value `1`. -/
theorem operator_extract_accepts_longer_symbol :
    (print_unit [1, 0, 0, 0, 0, 0, 0] "" = some "m" ∧
      print_unit [0, 0, 0, 0, 0, 1, 0] "" = some "mol" ∧
      operator_extract extract_int ⟨"5mol".data, false⟩
          (⟨[1, 0, 0, 0, 0, 0, 0], 1⟩ : Quantity Int) =
        some (⟨"ol".data, false⟩, ⟨[1, 0, 0, 0, 0, 0, 0], 5⟩)) ∧
    (u.henry = some [0, 1, -2, -2, 0, 0, 0] ∧ u.hertz = some [0, 0, -1, 0, 0, 0, 0] ∧
      print_unit [0, 1, -2, -2, 0, 0, 0] "" = some "H" ∧
      print_unit [0, 0, -1, 0, 0, 0, 0] "" = some "Hz" ∧
      operator_extract extract_int ⟨"5Hz".data, false⟩
          (⟨[0, 1, -2, -2, 0, 0, 0], 1⟩ : Quantity Int) =
        some (⟨"z".data, false⟩, ⟨[0, 1, -2, -2, 0, 0, 0], 5⟩)) ∧
    (print_unit [0, 0, 0, 0, 0, 0, 0] "" = some "" ∧
      operator_extract extract_int ⟨"5N".data, false⟩
          (⟨[0, 0, 0, 0, 0, 0, 0], 1⟩ : Quantity Int) =
        some (⟨"N".data, false⟩, ⟨[0, 0, 0, 0, 0, 0, 0], 5⟩)) ∧
    (u.newton = some [1, 1, -2, 0, 0, 0, 0] ∧
      operator_extract extract_int ⟨"-45Hz".data, false⟩
          (⟨[1, 1, -2, 0, 0, 0, 0], 1⟩ : Quantity Int) =
        some (⟨"z".data, true⟩, ⟨[1, 1, -2, 0, 0, 0, 0], 1⟩)) := by
  refine ⟨⟨by decide, by decide, rfl⟩, ⟨by decide, by decide, by decide, by decide, rfl⟩,
    ⟨by decide, rfl⟩, ⟨by decide, rfl⟩⟩

/-- C22: `operator>>` performs no partial update.  For every stream, every prior
value of the target and every unit for which the operator builds, the read
returns; if the stream is failed afterwards the target is its prior value, and
if the stream is not failed the target has its unit and the magnitude that was
read.  For a unit that cannot be printed the operator does not build. -/
theorem operator_extract_no_partial_update {α : Type} (extract : IStream → IStream × α)
    (s : IStream) (v : Quantity α) :
    (print_unit v.unit "" = none → operator_extract extract s v = none) ∧
    (∀ expected, print_unit v.unit "" = some expected →
      ∃ s1 v1, operator_extract extract s v = some (s1, v1) ∧
        (s1.failed = true → v1 = v) ∧
        (s1.failed = false → v1.unit = v.unit ∧ v1.magnitude = (extract s).2)) := by
  constructor
  · intro hnone
    unfold operator_extract read_unit
    rw [hnone]
    split_ifs <;> rfl
  · intro expected hsome
    unfold operator_extract read_unit
    rw [hsome]
    by_cases hf : (extract s).1.failed = true
    · rw [if_pos hf]
      exact ⟨_, _, rfl, fun _ => rfl, fun h => by rw [hf] at h; cases h⟩
    · rw [if_neg hf]
      simp only
      by_cases hf2 : (read_unit_loop expected.data (extract s).1).failed = true
      · rw [if_pos hf2]
        exact ⟨_, _, rfl, fun _ => rfl, fun h => by rw [hf2] at h; cases h⟩
      · rw [if_neg hf2]
        exact ⟨_, _, rfl, fun h => absurd h hf2, fun _ => ⟨rfl, rfl⟩⟩

/-- C22 (witness): the text `-45Hz` read into a quantity of unit `u::newton`
holding `1`. -/
theorem operator_extract_no_partial_update_witness :
    ∃ s1 v1, operator_extract extract_int ⟨"-45Hz".data, false⟩
        (⟨[1, 1, -2, 0, 0, 0, 0], 1⟩ : Quantity Int) = some (s1, v1) ∧
      (s1.failed = true → v1 = ⟨[1, 1, -2, 0, 0, 0, 0], 1⟩) :=
  have h := (operator_extract_no_partial_update extract_int ⟨"-45Hz".data, false⟩
    (⟨[1, 1, -2, 0, 0, 0, 0], 1⟩ : Quantity Int)).2 "N" (by decide)
  h.elim fun s1 h1 => h1.elim fun v1 h2 => ⟨s1, v1, h2.1, h2.2.1⟩

theorem round_trip_of_exact {α : Type} (insert : α → String)
    (extract : IStream → IStream × α) (q target : Quantity α) (text : String)
    (hunit : target.unit = q.unit)
    (hwritten : operator_insert insert "" q = some text)
    (hexact : ∀ expected : String, print_unit q.unit "" = some expected →
      extract ⟨(insert q.magnitude ++ expected).data, false⟩ =
        (⟨expected.data, false⟩, q.magnitude)) :
    operator_extract extract ⟨text.data, false⟩ target = some (⟨[], false⟩, q) ∧
    ∃ expected, print_unit q.unit "" = some expected ∧
      text = insert q.magnitude ++ expected ∧
      ∀ rest, read_unit q.unit ⟨expected.data ++ rest, false⟩ = some ⟨rest, false⟩ := by
  unfold operator_insert at hwritten
  obtain ⟨expected, hexp, htext, hns, _⟩ := print_unit_some_shape q.unit _ text hwritten
  rw [String.empty_append] at htext
  have hread : ∀ rest, read_unit q.unit ⟨expected.data ++ rest, false⟩ =
      some ⟨rest, false⟩ := by
    intro rest
    unfold read_unit
    rw [hexp]
    simp only
    rw [read_unit_loop_exact expected.data rest hns]
  refine ⟨?_, expected, hexp, htext, hread⟩
  have hx := hexact expected hexp
  rw [← htext] at hx
  unfold operator_extract
  rw [hx, hunit]
  simp only [Bool.false_eq_true, if_false]
  have h0 := hread []
  rw [List.append_nil] at h0
  rw [h0]
  rfl

/-- C23: printing round trip.  For every quantity `q` whose unit can be printed
and whose magnitude is exactly printable (its extraction, from its written text
followed by the unit text, gives the magnitude back and leaves the unit text),
reading the text written by `operator<<` with `operator>>` into a quantity of
the same unit does not fail and yields `q`; `read_unit` accepts the text that
`print_unit` writes and consumes exactly that text.  Integer magnitudes are
exactly printable in front of every unit text. -/
theorem print_then_read_round_trip {α : Type} (insert : α → String)
    (extract : IStream → IStream × α) (q target : Quantity α) (text : String)
    (hunit : target.unit = q.unit)
    (hwritten : operator_insert insert "" q = some text)
    (hexact : ∀ expected : String, print_unit q.unit "" = some expected →
      extract ⟨(insert q.magnitude ++ expected).data, false⟩ =
        (⟨expected.data, false⟩, q.magnitude)) :
    (operator_extract extract ⟨text.data, false⟩ target = some (⟨[], false⟩, q) ∧
      ∃ expected, print_unit q.unit "" = some expected ∧
        text = insert q.magnitude ++ expected ∧
        ∀ rest, read_unit q.unit ⟨expected.data ++ rest, false⟩ = some ⟨rest, false⟩) ∧
    (∀ (qi ti : Quantity Int) (written : String), ti.unit = qi.unit → inInt qi.magnitude →
      operator_insert renderInt "" qi = some written →
      operator_extract extract_int ⟨written.data, false⟩ ti = some (⟨[], false⟩, qi)) ∧
    (∀ U : Unit, Unit.exponent_count U = 7 → ∃ expected, print_unit U "" = some expected) := by
  refine ⟨round_trip_of_exact insert extract q target text hunit hwritten hexact, ?_, ?_⟩
  · intro qi ti written hu hm hw
    refine (round_trip_of_exact renderInt extract_int qi ti written hu hw ?_).1
    intro expected hexp
    obtain ⟨e2, he2, _, _, hsd⟩ := print_unit_some_shape qi.unit "" expected hexp
    rw [hexp] at he2
    cases he2
    rw [String.data_append]
    refine extract_int_renderInt qi.magnitude hm expected.data ?_
    intro c hc
    cases hd : expected.data with
    | nil => rw [hd] at hc; cases hc
    | cons c0 cs =>
      rw [hd] at hc hsd
      cases hc
      exact hsd
  · intro U h7
    exact print_unit_seven_some U h7 ""

/-- C23 (witness): `-45 N` over integer magnitudes, written as `-45N`. -/
theorem print_then_read_round_trip_witness :
    operator_extract extract_int ⟨"-45N".data, false⟩
        (⟨[1, 1, -2, 0, 0, 0, 0], 1⟩ : Quantity Int) =
      some (⟨[], false⟩, ⟨[1, 1, -2, 0, 0, 0, 0], -45⟩) :=
  (print_then_read_round_trip renderInt extract_int
    (⟨[1, 1, -2, 0, 0, 0, 0], -45⟩ : Quantity Int) ⟨[1, 1, -2, 0, 0, 0, 0], 1⟩ "-45N" rfl
    (by decide)
    (by
      intro expected h
      have hN : print_unit [1, 1, -2, 0, 0, 0, 0] "" = some "N" := by decide
      have he : expected = "N" := by
        have h2 : some expected = some "N" := h.symm.trans hN
        exact Option.some.inj h2
      subst he
      rfl)).1.1

/-! ## C24: the symbols of the base units -/

/-- C24 (the code at the failing input): `u::lumen`, declared as
`product_unit<candela, steradian>`, is the same unit as `u::candela`, and
`print_unit` has an explicit specialisation for it; so `print_unit` of
`u::candela` writes `lm`, although `unitSymbol` of `u::candela` is `cd`.  The
other six base units are written as their base symbols. -/
theorem print_unit_base_units :
    (u.candela = some [0, 0, 0, 0, 0, 0, 1] ∧ u.lumen = u.candela ∧
      unitSymbol [0, 0, 0, 0, 0, 0, 1] = some "cd" ∧
      print_unit [0, 0, 0, 0, 0, 0, 1] "" = some "lm") ∧
    (print_unit [1, 0, 0, 0, 0, 0, 0] "" = some "m" ∧
      print_unit [0, 1, 0, 0, 0, 0, 0] "" = some "kg" ∧
      print_unit [0, 0, 1, 0, 0, 0, 0] "" = some "s" ∧
      print_unit [0, 0, 0, 1, 0, 0, 0] "" = some "A" ∧
      print_unit [0, 0, 0, 0, 1, 0, 0] "" = some "K" ∧
      print_unit [0, 0, 0, 0, 0, 1, 0] "" = some "mol") := by
  decide

end unit
